import Mathlib

/-!
# Log query construction and record validation (`internal/api/logging.go`)

A shallow embedding of `GetLogs` (its statement builder and its row loop),
`validateLogEntry`, `PostLog`, `GetLogsHandler` and `PostLogHandler`,
followed by the properties proved about them. The store, the clock and the
parsers of the standard library are inputs of the functions that use them.

Go strings are modelled by `String`, Go `int` by `Int` (no arithmetic is
performed on `limit` and `offset`, they are only compared with zero), and the
counter `paramCount` by `Nat` (it starts at 1 and is incremented at most six
times).
-/

namespace GoInsight

/-! ## Data model -/

/-- A point in time, as `time.Time`: seconds and nanoseconds since the zero
instant (January 1, year 1, 00:00:00 UTC). -/
structure Time where
  sec : Int
  nsec : Nat
  deriving DecidableEq, Repr

/-- The Go method `time.Time.IsZero`: the zero instant. -/
def Time.IsZero (t : Time) : Bool :=
  t.sec == 0 && t.nsec == 0

/-- The zero value of `time.Time`. -/
def Time.zero : Time := ⟨0, 0⟩

/-- A value bound to a placeholder (`interface{}` in `params`): the builder
only ever binds strings, times and integers. -/
inductive Param where
  | str (s : String)
  | time (t : Time)
  | int (n : Int)
  deriving DecidableEq, Repr

/-- The text of the statement before any filter clause (lines 18-19): a raw
string literal spanning two lines. -/
def baseQuery : String :=
  "SELECT id, service_name, log_level, message, timestamp, trace_id, span_id, metadata \n              FROM logs WHERE 1=1"

/-- The local variables of the statement builder of `GetLogs`: `query`,
`params` and `paramCount`. -/
structure Builder where
  query : String
  params : List Param
  paramCount : Nat
  deriving DecidableEq, Repr

/-- The statement builder of `GetLogs` (lines 18-65): the statement text and
the bound arguments that are handed to `db.DB.QueryContext`. Each `let b`
is one `if` block of the source, threading the three local variables.
`fmt.Sprintf(" ... $%d", paramCount)` is the literal text followed by the
decimal rendering of `paramCount`. -/
def GetLogsQuery (serviceName logLevel messageContains : String)
    (startTime endTime : Time) (limit offset : Int) : String × List Param :=
  let b : Builder := { query := baseQuery, params := [], paramCount := 1 }
  let b : Builder :=
    if serviceName ≠ "" then
      { query := b.query ++ (" AND service_name = $" ++ toString b.paramCount)
        params := b.params ++ [Param.str serviceName]
        paramCount := b.paramCount + 1 }
    else b
  let b : Builder :=
    if logLevel ≠ "" then
      { query := b.query ++ (" AND log_level = $" ++ toString b.paramCount)
        params := b.params ++ [Param.str logLevel]
        paramCount := b.paramCount + 1 }
    else b
  let b : Builder :=
    if messageContains ≠ "" then
      { query := b.query ++ (" AND message ILIKE $" ++ toString b.paramCount)
        params := b.params ++ [Param.str ("%" ++ messageContains ++ "%")]
        paramCount := b.paramCount + 1 }
    else b
  let b : Builder :=
    if !startTime.IsZero then
      { query := b.query ++ (" AND timestamp >= $" ++ toString b.paramCount)
        params := b.params ++ [Param.time startTime]
        paramCount := b.paramCount + 1 }
    else b
  let b : Builder :=
    if !endTime.IsZero then
      { query := b.query ++ (" AND timestamp <= $" ++ toString b.paramCount)
        params := b.params ++ [Param.time endTime]
        paramCount := b.paramCount + 1 }
    else b
  let b : Builder := { b with query := b.query ++ " ORDER BY timestamp DESC" }
  let b : Builder :=
    if limit > 0 then
      let b : Builder :=
        { query := b.query ++ (" LIMIT $" ++ toString b.paramCount)
          params := b.params ++ [Param.int limit]
          paramCount := b.paramCount + 1 }
      if offset > 0 then
        { b with
          query := b.query ++ (" OFFSET $" ++ toString b.paramCount)
          params := b.params ++ [Param.int offset] }
      else b
    else b
  (b.query, b.params)

/-! ## Records, validation and the write path -/

/-- A nullable string, as `sql.NullString`: `Valid` tells whether `String`
is present. -/
structure NullString where
  String : String
  Valid : Bool
  deriving DecidableEq, Repr

/-- Modelled from the spec: the record type `models.Log`, declared in a
package outside this file; the fields are those `logging.go` reads and
writes. `Metadata` is a pointer to raw JSON bytes, `none` being nil. -/
structure Log where
  ID : Int
  ServiceName : String
  LogLevel : String
  Message : String
  Timestamp : Time
  TraceID : NullString
  SpanID : NullString
  Metadata : Option String
  deriving DecidableEq, Repr

/-- The map `validLevels` of `validateLogEntry`: a lookup yields `false` for
a key that is not in the map. -/
def validLevels (level : String) : Bool :=
  level = "DEBUG" || level = "INFO" || level = "WARN" || level = "ERROR" || level = "FATAL"

/-- The function `validateLogEntry` (lines 109-133): `none` is the nil error,
`some msg` an error with text `msg`. -/
def validateLogEntry (logEntry : Log) : Option String :=
  if logEntry.ServiceName = "" then
    some "service name is required"
  else if logEntry.Message = "" then
    some "message is required"
  else if logEntry.LogLevel ≠ "" then
    if !validLevels logEntry.LogLevel then
      some ("invalid log level: " ++ logEntry.LogLevel)
    else none
  else none

/-- The values `PostLog` hands to the store with its INSERT statement, in
placeholder order `$1` to `$7`. -/
structure InsertArgs where
  serviceName : String
  logLevel : String
  message : String
  timestamp : Time
  traceID : NullString
  spanID : NullString
  metadata : Option String
  deriving DecidableEq, Repr

/-- The pre-insert normalisation of `PostLog` (lines 136-158); `now` is the
value of `time.Now()`. -/
def PostLog.normalize (now : Time) (logEntry : Log) : Log :=
  let logEntry : Log :=
    if logEntry.Timestamp.IsZero then { logEntry with Timestamp := now } else logEntry
  let logEntry : Log :=
    if logEntry.TraceID.String = "" then
      { logEntry with TraceID := { logEntry.TraceID with Valid := false } }
    else
      { logEntry with TraceID := { logEntry.TraceID with Valid := true } }
  let logEntry : Log :=
    if logEntry.SpanID.String = "" then
      { logEntry with SpanID := { logEntry.SpanID with Valid := false } }
    else
      { logEntry with SpanID := { logEntry.SpanID with Valid := true } }
  let logEntry : Log :=
    match logEntry.Metadata with
    | none => { logEntry with Metadata := some "\x7b\x7d" }
    | some md =>
      if md.length = 0 then { logEntry with Metadata := some "\x7b\x7d" } else logEntry
  logEntry

/-- What a call of `PostLog` leaves behind: the record as the caller sees it
afterwards, the error returned, and the INSERT calls made on the store. -/
structure PostLogResult where
  logEntry : Log
  err : Option String
  inserts : List InsertArgs
  deriving DecidableEq, Repr

/-- The function `PostLog` (lines 135-183). The store is `db`: given the
bound values of the INSERT it answers with the new identifier or an error. -/
def PostLog (db : InsertArgs → Except String Int) (now : Time) (logEntry : Log) :
    PostLogResult :=
  let logEntry := PostLog.normalize now logEntry
  let args : InsertArgs :=
    { serviceName := logEntry.ServiceName
      logLevel := logEntry.LogLevel
      message := logEntry.Message
      timestamp := logEntry.Timestamp
      traceID := logEntry.TraceID
      spanID := logEntry.SpanID
      metadata := logEntry.Metadata }
  match db args with
  | Except.ok id => { logEntry := { logEntry with ID := id }, err := none, inserts := [args] }
  | Except.error e => { logEntry := logEntry, err := some e, inserts := [args] }

/-- A response written by a handler: `http.Error(w, message, status)`, or a
JSON-encoded record under a status. -/
inductive Response where
  | error (message : String) (status : Nat)
  | json (status : Nat) (logEntry : Log)
  deriving DecidableEq, Repr

/-- The function `PostLogHandler` (lines 230-257): the response written and
the INSERT calls made on the store. `method` is `r.Method`, `decoded` the
outcome of decoding the request body into a record. -/
def PostLogHandler (db : InsertArgs → Except String Int) (now : Time) (method : String)
    (decoded : Except String Log) : Response × List InsertArgs :=
  if method ≠ "POST" then
    (Response.error "Method not allowed" 405, [])
  else
    match decoded with
    | Except.error _ => (Response.error "Invalid request body" 400, [])
    | Except.ok logEntry =>
      match validateLogEntry logEntry with
      | some err => (Response.error err 400, [])
      | none =>
        let r := PostLog db now logEntry
        match r.err with
        | some _ => (Response.error "Failed to save log" 500, r.inserts)
        | none => (Response.json 201 r.logEntry, r.inserts)

/-! ## The builder as a fold over optional clauses

The statement is described a second time, after the specification: an ordered
list of optional clauses, each a clause text ending in `$` and a bound value,
numbered from left to right. -/

/-- One optional clause: present when its condition holds. -/
def clauseIf (c : Bool) (text : String) (v : Param) : List (String × Param) :=
  if c then [(text, v)] else []

/-- The five optional filter clauses in their fixed order: service, level,
message, start time, end time. -/
def filterClauses (serviceName logLevel messageContains : String)
    (startTime endTime : Time) : List (String × Param) :=
  clauseIf (decide (serviceName ≠ "")) " AND service_name = $" (Param.str serviceName) ++
  clauseIf (decide (logLevel ≠ "")) " AND log_level = $" (Param.str logLevel) ++
  clauseIf (decide (messageContains ≠ "")) " AND message ILIKE $"
    (Param.str ("%" ++ messageContains ++ "%")) ++
  clauseIf (!startTime.IsZero) " AND timestamp >= $" (Param.time startTime) ++
  clauseIf (!endTime.IsZero) " AND timestamp <= $" (Param.time endTime)

/-- The paging clauses: a limit when positive, and an offset only together
with a limit. -/
def pagingClauses (limit offset : Int) : List (String × Param) :=
  if limit > 0 then
    (" LIMIT $", Param.int limit) :: clauseIf (decide (offset > 0)) " OFFSET $" (Param.int offset)
  else []

/-- Clause texts written one after the other, each followed by the next
placeholder number, counting from `n`. -/
def renderClauses : Nat → List String → String
  | _, [] => ""
  | n, t :: ts => t ++ toString n ++ renderClauses (n + 1) ts

/-- The number of filter fields that are set. -/
def setCount (serviceName logLevel messageContains : String) (startTime endTime : Time) : Nat :=
  (if serviceName ≠ "" then 1 else 0) + (if logLevel ≠ "" then 1 else 0) +
  (if messageContains ≠ "" then 1 else 0) + (if !startTime.IsZero then 1 else 0) +
  (if !endTime.IsZero then 1 else 0)

/-- The clause texts as a function of which inputs are set. -/
def textIf (c : Bool) (text : String) : List String := if c then [text] else []

/-- The filter clause texts for given set-flags. -/
def filterTexts (b1 b2 b3 b4 b5 : Bool) : List String :=
  textIf b1 " AND service_name = $" ++ textIf b2 " AND log_level = $" ++
  textIf b3 " AND message ILIKE $" ++ textIf b4 " AND timestamp >= $" ++
  textIf b5 " AND timestamp <= $"

/-- The paging clause texts for given sign tests of limit and offset. -/
def pagingTexts (bl bo : Bool) : List String :=
  if bl then " LIMIT $" :: textIf bo " OFFSET $" else []

/-- The statement text for given set-flags. -/
def statementOfFlags (b1 b2 b3 b4 b5 bl bo : Bool) : String :=
  baseQuery ++ renderClauses 1 (filterTexts b1 b2 b3 b4 b5) ++ " ORDER BY timestamp DESC" ++
    renderClauses ((filterTexts b1 b2 b3 b4 b5).length + 1) (pagingTexts bl bo)

/-! ## Reading a statement back -/

/-- The number denoted by a run of decimal digits. -/
def digitsValue (ds : List Char) : Nat :=
  ds.foldl (fun acc c => 10 * acc + (c.toNat - 48)) 0

/-- The placeholders of a statement from left to right, each with the text
that precedes it since the previous `$`: a placeholder is `$` followed by
its decimal digits. -/
def clauseSegmentsAux (acc : List Char) : List Char → List (List Char × Nat)
  | [] => []
  | c :: cs =>
    if c = '$' then
      (acc.reverse, digitsValue (cs.takeWhile Char.isDigit)) :: clauseSegmentsAux [] cs
    else clauseSegmentsAux (c :: acc) cs

/-- The placeholders of a statement with their leading text. -/
def clauseSegments (q : String) : List (List Char × Nat) :=
  clauseSegmentsAux [] q.data

/-- The placeholder numbers of a statement, read left to right. -/
def placeholders (q : String) : List Nat :=
  (clauseSegments q).map Prod.snd

/-- The seven kinds of clause that carry a placeholder. -/
inductive ClauseKind where
  | serviceName | logLevel | message | startTime | endTime | limit | offset
  deriving DecidableEq, Repr

/-- The kind of clause a placeholder belongs to, read off the text that ends
right before its `$`. -/
def clauseKindOf (text : List Char) : Option ClauseKind :=
  if " AND service_name = ".data.isSuffixOf text then some ClauseKind.serviceName
  else if " AND log_level = ".data.isSuffixOf text then some ClauseKind.logLevel
  else if " AND message ILIKE ".data.isSuffixOf text then some ClauseKind.message
  else if " AND timestamp >= ".data.isSuffixOf text then some ClauseKind.startTime
  else if " AND timestamp <= ".data.isSuffixOf text then some ClauseKind.endTime
  else if " LIMIT ".data.isSuffixOf text then some ClauseKind.limit
  else if " OFFSET ".data.isSuffixOf text then some ClauseKind.offset
  else none

/-- The clause kinds of a statement's placeholders, left to right. -/
def clauseKinds (q : String) : List (Option ClauseKind) :=
  (clauseSegments q).map (fun sg => clauseKindOf sg.1)

/-- The value that belongs to a clause kind for given inputs of `GetLogs`. -/
def valueOfKind (serviceName logLevel messageContains : String)
    (startTime endTime : Time) (limit offset : Int) : ClauseKind → Param
  | ClauseKind.serviceName => Param.str serviceName
  | ClauseKind.logLevel => Param.str logLevel
  | ClauseKind.message => Param.str ("%" ++ messageContains ++ "%")
  | ClauseKind.startTime => Param.time startTime
  | ClauseKind.endTime => Param.time endTime
  | ClauseKind.limit => Param.int limit
  | ClauseKind.offset => Param.int offset

/-- The clause kinds present for given set-flags, in statement order. -/
def kindsOfFlags (b1 b2 b3 b4 b5 bl bo : Bool) : List ClauseKind :=
  (if b1 then [ClauseKind.serviceName] else []) ++ (if b2 then [ClauseKind.logLevel] else []) ++
  (if b3 then [ClauseKind.message] else []) ++ (if b4 then [ClauseKind.startTime] else []) ++
  (if b5 then [ClauseKind.endTime] else []) ++
  (if bl then ClauseKind.limit :: (if bo then [ClauseKind.offset] else []) else [])

/-- The number of positions of `s` at which `pat` starts (the end of `s`
counts as a position, where only the empty text starts). -/
def countOcc (pat : List Char) : List Char → Nat
  | [] => if pat.isPrefixOf [] then 1 else 0
  | c :: cs => (if pat.isPrefixOf (c :: cs) then 1 else 0) + countOcc pat cs

/-- The number of occurrences of the text `pat` in the text `s`. -/
def occurrences (pat s : String) : Nat :=
  countOcc pat.data s.data

/-- The text `pat` occurs somewhere in the text `s`. -/
def Occurs (pat s : String) : Prop :=
  pat.data <:+: s.data

instance (pat s : String) : Decidable (Occurs pat s) := by
  unfold Occurs; infer_instance

/-- The position (from 0) of the message clause among the clauses of a
statement: the number of filters set before it. -/
def messagePosition (serviceName logLevel : String) : Nat :=
  (if serviceName ≠ "" then 1 else 0) + (if logLevel ≠ "" then 1 else 0)

/-- The position of the message clause for given set-flags. -/
def messagePositionOfFlags (b1 b2 : Bool) : Nat :=
  (if b1 then 1 else 0) + (if b2 then 1 else 0)

/-! ## Pattern matching in the store -/

/-- Modelled from the spec: the store's `ILIKE` operator, which this
repository only names in the statement text. `%` matches any sequence of
characters, `_` matches any single character, and every other pattern
character matches itself without regard to case. -/
def ilikeMatch : List Char → List Char → Bool
  | [], s => s.isEmpty
  | c :: p, s =>
    if c = '%' then s.tails.any (ilikeMatch p)
    else
      match s with
      | [] => false
      | d :: s' => (decide (c = '_') || decide (c.toLower = d.toLower)) && ilikeMatch p s'

/-- The pattern `pat` matches the stored message `m` under `ILIKE`. -/
def ILike (pat m : String) : Prop :=
  ilikeMatch pat.data m.data = true

/-- The message `m` contains `v` as a substring, compared without regard to
case. -/
def ContainsIgnoreCase (v m : String) : Prop :=
  v.data.map Char.toLower <:+: m.data.map Char.toLower

instance (pat m : String) : Decidable (ILike pat m) := by
  unfold ILike; infer_instance

instance (v m : String) : Decidable (ContainsIgnoreCase v m) := by
  unfold ContainsIgnoreCase; infer_instance

/-! ## Auxiliary definitions -/

/-- The five log levels accepted by validation. -/
def logLevels : List String := ["DEBUG", "INFO", "WARN", "ERROR", "FATAL"]

/-- A record for examples: every field at its zero value. -/
def Log.empty : Log :=
  { ID := 0, ServiceName := "", LogLevel := "", Message := "", Timestamp := Time.zero,
    TraceID := ⟨"", false⟩, SpanID := ⟨"", false⟩, Metadata := none }

/-- What a builder state holds after the clauses `cl` have been appended. -/
def Builder.Holds (b : Builder) (cl : List (String × Param)) : Prop :=
  b.query = baseQuery ++ renderClauses 1 (cl.map Prod.fst) ∧
  b.params = cl.map Prod.snd ∧ b.paramCount = cl.length + 1

/-! ## The read path and the remaining write-path definitions -/

/-- The method `Value` of `sql.NullString`, by which the driver hands the
field to the store: null when `Valid` is false, the string otherwise. -/
def NullStringValue (ns : NullString) : Option String :=
  if !ns.Valid then none else some ns.String

/-- The outbound mapping of the metadata column in `GetLogs` (lines 95-101):
the stored bytes, or the empty JSON object when there are none. -/
def GetLogs.rowMetadata (metadataBytes : String) : Option String :=
  if metadataBytes.length > 0 then some metadataBytes else some "\x7b\x7d"

/-- A Go slice value as far as the JSON encoder tells slices apart: the nil
slice, or a slice holding elements (possibly none). -/
inductive Slice (α : Type) where
  | nil
  | of (elems : List α)
  deriving DecidableEq, Repr

/-- The elements of a slice; the nil slice has none. -/
def Slice.elems {α : Type} : Slice α → List α
  | Slice.nil => []
  | Slice.of l => l

/-- The builtin `append(s, x)`: the result is never nil. -/
def Slice.append {α : Type} (s : Slice α) (x : α) : Slice α :=
  Slice.of (s.elems ++ [x])

/-- What `rows.Scan` stores for a row that scans: the seven record fields and
the raw metadata bytes. -/
structure ScannedRow where
  ID : Int
  ServiceName : String
  LogLevel : String
  Message : String
  Timestamp : Time
  TraceID : NullString
  SpanID : NullString
  metadataBytes : String
  deriving DecidableEq, Repr

/-- The record `GetLogs` builds from a row that scans (lines 77-101). -/
def GetLogs.rowLog (r : ScannedRow) : Log :=
  { ID := r.ID
    ServiceName := r.ServiceName
    LogLevel := r.LogLevel
    Message := r.Message
    Timestamp := r.Timestamp
    TraceID := r.TraceID
    SpanID := r.SpanID
    Metadata := GetLogs.rowMetadata r.metadataBytes }

/-- The loop `for rows.Next()` of `GetLogs` (lines 76-104) over the rows of
the result, each of which scans (`ok`) or fails to scan (`error`); `logs` is
the slice built so far. A failing row is skipped by `continue`. -/
def GetLogs.scanRows : List (Except String ScannedRow) → Slice Log → Slice Log
  | [], logs => logs
  | Except.error _ :: rows, logs => GetLogs.scanRows rows logs
  | Except.ok r :: rows, logs => GetLogs.scanRows rows (logs.append (GetLogs.rowLog r))

/-- What a call of `GetLogs` leaves behind: the slice and the error returned,
and the statements sent to the store with their bound arguments. -/
structure GetLogsResult where
  logs : Slice Log
  err : Option String
  queries : List (String × List Param)
  deriving DecidableEq, Repr

/-- The function `GetLogs` (lines 17-107). The store is `db`: given a
statement and its bound arguments it answers with the rows of the result or
with an error. -/
def GetLogs (db : String → List Param → Except String (List (Except String ScannedRow)))
    (serviceName logLevel messageContains : String) (startTime endTime : Time)
    (limit offset : Int) : GetLogsResult :=
  let q := GetLogsQuery serviceName logLevel messageContains startTime endTime limit offset
  match db q.1 q.2 with
  | Except.error e => { logs := Slice.nil, err := some e, queries := [q] }
  | Except.ok rows => { logs := GetLogs.scanRows rows Slice.nil, err := none, queries := [q] }

/-- What `json.NewEncoder(w).Encode` writes for a slice, given the encoding
of an element: `null` for the nil slice, a JSON array otherwise, followed by
a newline. -/
def encodeSlice {α : Type} (encodeElem : α → String) : Slice α → String
  | Slice.nil => "null\n"
  | Slice.of l => "[" ++ ",".intercalate (l.map encodeElem) ++ "]\n"

/-- A response written by `GetLogsHandler`: `http.Error(w, message, status)`,
or the JSON encoding of the slice of records. -/
inductive ListResponse where
  | error (message : String) (status : Nat)
  | json (logs : Slice Log)
  deriving DecidableEq, Repr

/-- The limit `GetLogsHandler` passes on (lines 206-211): `limitStr` is the
value of the query parameter `limit` (empty when omitted), `atoi` is
`strconv.Atoi`, `none` standing for its error. -/
def GetLogsHandler.limit (atoi : String → Option Int) (limitStr : String) : Int :=
  let limit : Int := 100
  if limitStr ≠ "" then
    match atoi limitStr with
    | some parsedLimit => if parsedLimit > 0 then parsedLimit else limit
    | none => limit
  else limit

/-- The offset `GetLogsHandler` passes on (lines 213-218). -/
def GetLogsHandler.offset (atoi : String → Option Int) (offsetStr : String) : Int :=
  let offset : Int := 0
  if offsetStr ≠ "" then
    match atoi offsetStr with
    | some parsedOffset => if parsedOffset ≥ 0 then parsedOffset else offset
    | none => offset
  else offset

/-- A time bound `GetLogsHandler` passes on (lines 192-204): `parseTime` is
`time.Parse(time.RFC3339, _)`, `none` standing for its error. -/
def GetLogsHandler.time (parseTime : String → Option Time) (timeStr : String) : Time :=
  if timeStr ≠ "" then
    match parseTime timeStr with
    | some parsedTime => parsedTime
    | none => Time.zero
  else Time.zero

/-- The function `GetLogsHandler` (lines 185-228): the response written and
the statements sent to the store. `query` is `r.URL.Query().Get`, which gives
the empty string for a parameter that is omitted. -/
def GetLogsHandler (db : String → List Param → Except String (List (Except String ScannedRow)))
    (parseTime : String → Option Time) (atoi : String → Option Int) (query : String → String) :
    ListResponse × List (String × List Param) :=
  let serviceName := query "service"
  let logLevel := query "level"
  let messageContains := query "message"
  let startTime := GetLogsHandler.time parseTime (query "start_time")
  let endTime := GetLogsHandler.time parseTime (query "end_time")
  let limit := GetLogsHandler.limit atoi (query "limit")
  let offset := GetLogsHandler.offset atoi (query "offset")
  let r := GetLogs db serviceName logLevel messageContains startTime endTime limit offset
  match r.err with
  | some _ => (ListResponse.error "Failed to fetch logs" 500, r.queries)
  | none => (ListResponse.json r.logs, r.queries)

/-- Modelled on `strconv.Atoi` of the Go standard library: an optional sign,
then one or more decimal digits, the value within the 64-bit range. -/
def Atoi (s : String) : Option Int :=
  let signed : Bool × List Char :=
    match s.data with
    | '-' :: ds => (true, ds)
    | '+' :: ds => (false, ds)
    | ds => (false, ds)
  if signed.2 = [] ∨ ¬ signed.2.all Char.isDigit then none
  else
    let n : Int := digitsValue signed.2
    let v : Int := if signed.1 then -n else n
    if v < -9223372036854775808 ∨ v > 9223372036854775807 then none else some v

/-- The values of the INSERT for a normalised record, as `PostLog` lists
them. -/
def insertArgsOf (logEntry : Log) : InsertArgs :=
  { serviceName := logEntry.ServiceName
    logLevel := logEntry.LogLevel
    message := logEntry.Message
    timestamp := logEntry.Timestamp
    traceID := logEntry.TraceID
    spanID := logEntry.SpanID
    metadata := logEntry.Metadata }

/-- The records of the rows that scan, in the order of the rows. -/
def scannedLogs (rows : List (Except String ScannedRow)) : List Log :=
  rows.filterMap fun row =>
    match row with
    | Except.ok r => some (GetLogs.rowLog r)
    | Except.error _ => none

/-- The number of rows that scan. -/
def scannedCount (rows : List (Except String ScannedRow)) : Nat :=
  rows.countP fun row =>
    match row with
    | Except.ok _ => true
    | Except.error _ => false

/-- The five outcomes of `PostLogHandler`, in their order of priority, each
with the condition under which it occurs: method not allowed, body not
decodable, validation failed, store failed, created. -/
def PostLogHandler.Outcome (db : InsertArgs → Except String Int) (now : Time)
    (method : String) (decoded : Except String Log) : Fin 5 → Prop
  | 0 => method ≠ "POST" ∧
      PostLogHandler db now method decoded = (Response.error "Method not allowed" 405, [])
  | 1 => method = "POST" ∧ ∃ e, decoded = Except.error e ∧
      PostLogHandler db now method decoded = (Response.error "Invalid request body" 400, [])
  | 2 => method = "POST" ∧ ∃ logEntry msg, decoded = Except.ok logEntry ∧
      validateLogEntry logEntry = some msg ∧
      PostLogHandler db now method decoded = (Response.error msg 400, [])
  | 3 => method = "POST" ∧ ∃ logEntry e, decoded = Except.ok logEntry ∧
      validateLogEntry logEntry = none ∧
      db (insertArgsOf (PostLog.normalize now logEntry)) = Except.error e ∧
      PostLogHandler db now method decoded =
        (Response.error "Failed to save log" 500,
          [insertArgsOf (PostLog.normalize now logEntry)])
  | 4 => method = "POST" ∧ ∃ logEntry id, decoded = Except.ok logEntry ∧
      validateLogEntry logEntry = none ∧
      db (insertArgsOf (PostLog.normalize now logEntry)) = Except.ok id ∧
      PostLogHandler db now method decoded =
        (Response.json 201 { PostLog.normalize now logEntry with ID := id },
          [insertArgsOf (PostLog.normalize now logEntry)])

/-! # Theorems -/

/-! ## The builder is the fold over the optional clauses -/

theorem renderClauses_append (n : Nat) (ts : List String) (t : String) :
    renderClauses n (ts ++ [t]) = renderClauses n ts ++ (t ++ toString (n + ts.length)) := by
  induction ts generalizing n with
  | nil => simp [renderClauses]
  | cons a as ih =>
    have e : n + 1 + as.length = n + (as.length + 1) := by omega
    simp only [List.cons_append, renderClauses, ih, List.length_cons, String.append_assoc, e,
      List.append_eq]

theorem Builder.Holds.step {b : Builder} {cl : List (String × Param)} (h : b.Holds cl)
    (c : Prop) [Decidable c] (text : String) (v : Param) :
    Builder.Holds
      (if c then
        { query := b.query ++ (text ++ toString b.paramCount)
          params := b.params ++ [v]
          paramCount := b.paramCount + 1 }
      else b) (cl ++ clauseIf (decide c) text v) := by
  obtain ⟨hq, hp, hn⟩ := h
  by_cases hc : c
  · simp only [hc, if_true, clauseIf, decide_True]
    refine ⟨?_, ?_, ?_⟩
    · simp only [hq, hn, List.map_append, List.map_cons, List.map_nil, renderClauses_append,
        List.length_map, String.append_assoc]
      rw [Nat.add_comm 1]
    · simp [hp]
    · simp [hn]
  · simp only [hc, if_false, clauseIf, decide_False, List.append_nil]
    simpa using (⟨hq, hp, hn⟩ : b.Holds cl)

theorem GetLogsQuery_eq (serviceName logLevel messageContains : String)
    (startTime endTime : Time) (limit offset : Int) :
    GetLogsQuery serviceName logLevel messageContains startTime endTime limit offset =
      (baseQuery ++
          renderClauses 1
            ((filterClauses serviceName logLevel messageContains startTime endTime).map Prod.fst) ++
          " ORDER BY timestamp DESC" ++
          renderClauses
            ((filterClauses serviceName logLevel messageContains startTime endTime).length + 1)
            ((pagingClauses limit offset).map Prod.fst),
        (filterClauses serviceName logLevel messageContains startTime endTime ++
          pagingClauses limit offset).map Prod.snd) := by
  unfold GetLogsQuery
  lift_lets
  intro b0 b1 b2 b3 b4 b5 b6 b7 b8
  have h0 : b0.Holds [] := by
    simp [b0, Builder.Holds, renderClauses]
  have h1 : b1.Holds _ := h0.step (serviceName ≠ "") " AND service_name = $" (Param.str serviceName)
  have h2 : b2.Holds _ := h1.step (logLevel ≠ "") " AND log_level = $" (Param.str logLevel)
  have h3 : b3.Holds _ := h2.step (messageContains ≠ "") " AND message ILIKE $"
    (Param.str ("%" ++ messageContains ++ "%"))
  have h4 : b4.Holds _ := h3.step (!startTime.IsZero) " AND timestamp >= $" (Param.time startTime)
  have h5 : b5.Holds _ := h4.step (!endTime.IsZero) " AND timestamp <= $" (Param.time endTime)
  simp only [List.nil_append, Bool.decide_eq_true] at h5
  change b5.Holds (filterClauses serviceName logLevel messageContains startTime endTime) at h5
  obtain ⟨hq, hp, hn⟩ := h5
  by_cases hl : limit > 0
  · by_cases ho : offset > 0
    · simp [b8, b7, b6, hq, hp, hn, hl, ho, pagingClauses, clauseIf, renderClauses,
        String.append_assoc]
    · simp [b8, b7, b6, hq, hp, hn, hl, ho, pagingClauses, clauseIf, renderClauses,
        String.append_assoc]
  · simp [b8, b6, hq, hp, hl, pagingClauses, renderClauses]

theorem clauseIf_texts (c : Bool) (text : String) (v : Param) :
    (clauseIf c text v).map Prod.fst = textIf c text := by
  cases c <;> rfl

theorem filterClauses_texts (serviceName logLevel messageContains : String)
    (startTime endTime : Time) :
    (filterClauses serviceName logLevel messageContains startTime endTime).map Prod.fst =
      filterTexts (decide (serviceName ≠ "")) (decide (logLevel ≠ ""))
        (decide (messageContains ≠ "")) (!startTime.IsZero) (!endTime.IsZero) := by
  simp only [filterClauses, filterTexts, List.map_append, clauseIf_texts]

theorem pagingClauses_texts (limit offset : Int) :
    (pagingClauses limit offset).map Prod.fst =
      pagingTexts (decide (limit > 0)) (decide (offset > 0)) := by
  by_cases hl : limit > 0 <;> simp [pagingClauses, pagingTexts, hl, clauseIf_texts]

theorem GetLogsQuery_statement (serviceName logLevel messageContains : String)
    (startTime endTime : Time) (limit offset : Int) :
    (GetLogsQuery serviceName logLevel messageContains startTime endTime limit offset).1 =
      statementOfFlags (decide (serviceName ≠ "")) (decide (logLevel ≠ ""))
        (decide (messageContains ≠ "")) (!startTime.IsZero) (!endTime.IsZero)
        (decide (limit > 0)) (decide (offset > 0)) := by
  rw [GetLogsQuery_eq]
  simp only [statementOfFlags, ← filterClauses_texts, ← pagingClauses_texts, List.length_map]

theorem GetLogsQuery_params (serviceName logLevel messageContains : String)
    (startTime endTime : Time) (limit offset : Int) :
    (GetLogsQuery serviceName logLevel messageContains startTime endTime limit offset).2 =
      (kindsOfFlags (decide (serviceName ≠ "")) (decide (logLevel ≠ ""))
        (decide (messageContains ≠ "")) (!startTime.IsZero) (!endTime.IsZero)
        (decide (limit > 0)) (decide (offset > 0))).map
        (valueOfKind serviceName logLevel messageContains startTime endTime limit offset) := by
  rw [GetLogsQuery_eq]
  have hp : (pagingClauses limit offset).map Prod.snd =
      (if decide (limit > 0) then
          ClauseKind.limit :: (if decide (offset > 0) then [ClauseKind.offset] else [])
        else []).map
        (valueOfKind serviceName logLevel messageContains startTime endTime limit offset) := by
    by_cases h6 : limit > 0 <;> by_cases h7 : offset > 0 <;>
      simp [pagingClauses, clauseIf, h6, h7, valueOfKind]
  simp only [filterClauses, kindsOfFlags, List.map_append, hp]
  generalize decide (serviceName ≠ "") = b1
  generalize decide (logLevel ≠ "") = b2
  generalize decide (messageContains ≠ "") = b3
  generalize (!startTime.IsZero) = b4
  generalize (!endTime.IsZero) = b5
  cases b1 <;> cases b2 <;> cases b3 <;> cases b4 <;> cases b5 <;> rfl

set_option maxRecDepth 1000000 in
theorem statementOfFlags_placeholders :
    ∀ b1 b2 b3 b4 b5 bl bo : Bool,
      placeholders (statementOfFlags b1 b2 b3 b4 b5 bl bo) =
        List.range' 1 (kindsOfFlags b1 b2 b3 b4 b5 bl bo).length := by
  decide

set_option maxRecDepth 1000000 in
theorem statementOfFlags_kinds :
    ∀ b1 b2 b3 b4 b5 bl bo : Bool,
      clauseKinds (statementOfFlags b1 b2 b3 b4 b5 bl bo) =
        (kindsOfFlags b1 b2 b3 b4 b5 bl bo).map some := by
  decide

theorem countOcc_pos_iff (pat s : List Char) : 0 < countOcc pat s ↔ pat <:+: s := by
  induction s with
  | nil =>
    cases pat <;> simp [countOcc, List.isPrefixOf]
  | cons c cs ih =>
    rw [List.infix_cons_iff, ← ih, countOcc]
    by_cases h : pat.isPrefixOf (c :: cs) = true
    · simp [h, List.isPrefixOf_iff_prefix.mp h]
    · have h2 : ¬ pat <+: c :: cs := fun hp => h (List.isPrefixOf_iff_prefix.mpr hp)
      simp [h, h2]

theorem occurs_iff (pat s : String) : Occurs pat s ↔ 0 < occurrences pat s :=
  (countOcc_pos_iff pat.data s.data).symm

theorem not_occurs_iff (pat s : String) : ¬ Occurs pat s ↔ occurrences pat s = 0 := by
  rw [occurs_iff]; omega

set_option maxRecDepth 1000000 in
theorem statementOfFlags_and :
    ∀ b1 b2 b3 b4 b5 bl bo : Bool,
      occurrences " AND "
        (renderClauses 1 (filterTexts b1 b2 b3 b4 b5) ++ " ORDER BY timestamp DESC" ++
          renderClauses ((filterTexts b1 b2 b3 b4 b5).length + 1) (pagingTexts bl bo)) =
        (filterTexts b1 b2 b3 b4 b5).length := by
  decide

set_option maxRecDepth 1000000 in
theorem statementOfFlags_no_paging :
    ∀ b1 b2 b3 b4 b5 bo : Bool,
      occurrences "LIMIT" (statementOfFlags b1 b2 b3 b4 b5 false bo) = 0 ∧
      occurrences "OFFSET" (statementOfFlags b1 b2 b3 b4 b5 false bo) = 0 := by
  decide

set_option maxRecDepth 1000000 in
theorem statementOfFlags_offset :
    ∀ b1 b2 b3 b4 b5 bo : Bool,
      decide (0 < occurrences "OFFSET" (statementOfFlags b1 b2 b3 b4 b5 true bo)) = bo := by
  decide

set_option maxRecDepth 1000000 in
theorem statementOfFlags_order_by :
    ∀ b1 b2 b3 b4 b5 bl bo : Bool,
      occurrences " ORDER BY timestamp DESC" (statementOfFlags b1 b2 b3 b4 b5 bl bo) = 1 := by
  decide

set_option maxRecDepth 1000000 in
theorem statementOfFlags_parts :
    ∀ b1 b2 b3 b4 b5 bl bo : Bool,
      occurrences "LIMIT" (baseQuery ++ renderClauses 1 (filterTexts b1 b2 b3 b4 b5)) = 0 ∧
      occurrences "OFFSET" (baseQuery ++ renderClauses 1 (filterTexts b1 b2 b3 b4 b5)) = 0 ∧
      occurrences " AND "
        (renderClauses ((filterTexts b1 b2 b3 b4 b5).length + 1) (pagingTexts bl bo)) = 0 := by
  decide

theorem filterClauses_length (serviceName logLevel messageContains : String)
    (startTime endTime : Time) :
    (filterClauses serviceName logLevel messageContains startTime endTime).length =
      setCount serviceName logLevel messageContains startTime endTime := by
  simp only [filterClauses, setCount, clauseIf, List.length_append]
  by_cases h1 : serviceName = "" <;> by_cases h2 : logLevel = "" <;>
  by_cases h3 : messageContains = "" <;> cases h4 : startTime.IsZero <;>
  cases h5 : endTime.IsZero <;> simp [h1, h2, h3]

theorem filterTexts_length (serviceName logLevel messageContains : String)
    (startTime endTime : Time) :
    (filterTexts (decide (serviceName ≠ "")) (decide (logLevel ≠ ""))
        (decide (messageContains ≠ "")) (!startTime.IsZero) (!endTime.IsZero)).length =
      setCount serviceName logLevel messageContains startTime endTime := by
  rw [← filterClauses_texts, List.length_map, filterClauses_length]

/-- C1: the placeholders of the statement built by `GetLogs`, read left to
right, are exactly `$1, ..., $n` for `n` the number of bound arguments, and
the argument at each position is the value of the clause that carries the
placeholder of that position. -/
theorem GetLogs_placeholders_contiguous (serviceName logLevel messageContains : String)
    (startTime endTime : Time) (limit offset : Int) :
    placeholders (GetLogsQuery serviceName logLevel messageContains startTime endTime
        limit offset).1 =
      List.range' 1 (GetLogsQuery serviceName logLevel messageContains startTime endTime
        limit offset).2.length ∧
    (clauseKinds (GetLogsQuery serviceName logLevel messageContains startTime endTime
        limit offset).1).map
        (Option.map
          (valueOfKind serviceName logLevel messageContains startTime endTime limit offset)) =
      (GetLogsQuery serviceName logLevel messageContains startTime endTime
        limit offset).2.map some := by
  rw [GetLogsQuery_statement, GetLogsQuery_params, statementOfFlags_placeholders,
    statementOfFlags_kinds]
  simp

/-- C2: with `k` filter fields set, the statement built by `GetLogs` is the
base query followed by exactly `k` clauses introduced by ` AND `, one per set
field in the order service, level, message, start time, end time, numbered
from 1, then the ordering clause; the first `k` bound arguments are the
values of the set fields in that order. -/
theorem GetLogs_filter_clauses (serviceName logLevel messageContains : String)
    (startTime endTime : Time) (limit offset : Int) :
    ∃ rest tail : String,
      (GetLogsQuery serviceName logLevel messageContains startTime endTime limit offset).1 =
        baseQuery ++ rest ∧
      rest = renderClauses 1
          ((filterClauses serviceName logLevel messageContains startTime endTime).map Prod.fst) ++
          " ORDER BY timestamp DESC" ++ tail ∧
      occurrences " AND " rest =
        setCount serviceName logLevel messageContains startTime endTime ∧
      (filterClauses serviceName logLevel messageContains startTime endTime).length =
        setCount serviceName logLevel messageContains startTime endTime ∧
      (GetLogsQuery serviceName logLevel messageContains startTime endTime limit offset).2.take
          (setCount serviceName logLevel messageContains startTime endTime) =
        (filterClauses serviceName logLevel messageContains startTime endTime).map Prod.snd := by
  refine ⟨_, renderClauses
      ((filterClauses serviceName logLevel messageContains startTime endTime).length + 1)
      ((pagingClauses limit offset).map Prod.fst), ?_, rfl, ?_, ?_, ?_⟩
  · rw [GetLogsQuery_eq]
    simp only [String.append_assoc]
  · rw [filterClauses_texts, pagingClauses_texts, filterClauses_length, ← filterTexts_length]
    exact statementOfFlags_and _ _ _ _ _ _ _
  · exact filterClauses_length _ _ _ _ _
  · rw [GetLogsQuery_eq, ← filterClauses_length]
    simp

/-- C3: the statement text built by `GetLogs` depends only on which inputs
are set, never on their values: two calls that agree on the emptiness of the
three strings, on the zero-ness of the two times and on the sign tests of
limit and offset build the same statement. -/
theorem GetLogs_statement_independent_of_values
    (serviceName logLevel messageContains : String) (startTime endTime : Time)
    (limit offset : Int)
    (serviceName' logLevel' messageContains' : String) (startTime' endTime' : Time)
    (limit' offset' : Int)
    (h1 : serviceName = "" ↔ serviceName' = "") (h2 : logLevel = "" ↔ logLevel' = "")
    (h3 : messageContains = "" ↔ messageContains' = "")
    (h4 : startTime.IsZero = startTime'.IsZero) (h5 : endTime.IsZero = endTime'.IsZero)
    (h6 : limit > 0 ↔ limit' > 0) (h7 : offset > 0 ↔ offset' > 0) :
    (GetLogsQuery serviceName logLevel messageContains startTime endTime limit offset).1 =
      (GetLogsQuery serviceName' logLevel' messageContains' startTime' endTime'
        limit' offset').1 := by
  rw [GetLogsQuery_statement, GetLogsQuery_statement]
  simp only [ne_eq, h1, h2, h3, h4, h5, h6, h7]

/-- C3 at a concrete pair of inputs: a service name carrying statement text
builds the same statement as a plain one. -/
theorem GetLogs_statement_independent_of_values_witness :
    (GetLogsQuery "api" "" "50%" ⟨5, 0⟩ Time.zero 10 0).1 =
      (GetLogsQuery "x; DROP TABLE logs; --" "" "_" ⟨7, 3⟩ Time.zero 25 (-4)).1 :=
  GetLogs_statement_independent_of_values "api" "" "50%" ⟨5, 0⟩ Time.zero 10 0
    "x; DROP TABLE logs; --" "" "_" ⟨7, 3⟩ Time.zero 25 (-4)
    (by decide) (by decide) (by decide) (by decide) (by decide) (by decide) (by decide)

/-- C4: with `limit <= 0`, whatever the offset, the statement built by
`GetLogs` ends with the ordering clause, contains neither `LIMIT` nor
`OFFSET`, and the bound arguments are exactly the values of the set filters;
with no filter, limit 0 and offset 5 it is the base query followed by
` ORDER BY timestamp DESC`, with no bound argument. -/
theorem GetLogs_no_limit_no_paging (serviceName logLevel messageContains : String)
    (startTime endTime : Time) (limit offset : Int) (h : limit ≤ 0) :
    (GetLogsQuery serviceName logLevel messageContains startTime endTime limit offset).1 =
        baseQuery ++
          renderClauses 1
            ((filterClauses serviceName logLevel messageContains startTime endTime).map
              Prod.fst) ++
          " ORDER BY timestamp DESC" ∧
    ¬ Occurs "LIMIT"
        (GetLogsQuery serviceName logLevel messageContains startTime endTime limit offset).1 ∧
    ¬ Occurs "OFFSET"
        (GetLogsQuery serviceName logLevel messageContains startTime endTime limit offset).1 ∧
    (GetLogsQuery serviceName logLevel messageContains startTime endTime limit offset).2 =
        (filterClauses serviceName logLevel messageContains startTime endTime).map Prod.snd ∧
    GetLogsQuery "" "" "" Time.zero Time.zero 0 5 =
        (baseQuery ++ " ORDER BY timestamp DESC", []) := by
  have hl : ¬ limit > 0 := by omega
  have hd : decide (limit > 0) = false := by simp [hl]
  refine ⟨?_, ?_, ?_, ?_, by decide⟩
  · rw [GetLogsQuery_eq]
    simp [pagingClauses, hl, renderClauses]
  · rw [not_occurs_iff, GetLogsQuery_statement, hd]
    exact (statementOfFlags_no_paging _ _ _ _ _ _).1
  · rw [not_occurs_iff, GetLogsQuery_statement, hd]
    exact (statementOfFlags_no_paging _ _ _ _ _ _).2
  · rw [GetLogsQuery_eq]
    simp [pagingClauses, hl]

/-- C4 at limit 0, offset 5 and a service filter: no paging clause, one
bound argument. -/
theorem GetLogs_no_limit_no_paging_witness :
    GetLogsQuery "api" "" "" Time.zero Time.zero 0 5 =
        (baseQuery ++ " AND service_name = $1 ORDER BY timestamp DESC", [Param.str "api"]) ∧
    ¬ Occurs "LIMIT" (GetLogsQuery "api" "" "" Time.zero Time.zero 0 5).1 ∧
    ¬ Occurs "OFFSET" (GetLogsQuery "api" "" "" Time.zero Time.zero 0 5).1 := by
  have h := GetLogs_no_limit_no_paging "api" "" "" Time.zero Time.zero 0 5 (by decide)
  exact ⟨by decide, h.2.1, h.2.2.1⟩

/-- C5: with `limit > 0` and `k` filter fields set, the statement built by
`GetLogs` has ` LIMIT $(k+1)` directly after the ordering clause and `limit`
as bound argument `k+1`; ` OFFSET $(k+2)` follows the limit clause, with
`offset` as the last bound argument, exactly when `offset > 0`. With no
filter, limit 10 and offset 0 only the limit is emitted and the bound
arguments are `[10]`. -/
theorem GetLogs_limit_then_offset (serviceName logLevel messageContains : String)
    (startTime endTime : Time) (limit offset : Int) (h : limit > 0) :
    (GetLogsQuery serviceName logLevel messageContains startTime endTime limit offset).1 =
        baseQuery ++
          renderClauses 1
            ((filterClauses serviceName logLevel messageContains startTime endTime).map
              Prod.fst) ++
          " ORDER BY timestamp DESC" ++
          (" LIMIT $" ++
            toString (setCount serviceName logLevel messageContains startTime endTime + 1)) ++
          (if offset > 0 then
            " OFFSET $" ++
              toString (setCount serviceName logLevel messageContains startTime endTime + 2)
          else "") ∧
    (GetLogsQuery serviceName logLevel messageContains startTime endTime limit offset).2 =
        (filterClauses serviceName logLevel messageContains startTime endTime).map Prod.snd ++
          [Param.int limit] ++ (if offset > 0 then [Param.int offset] else []) ∧
    (filterClauses serviceName logLevel messageContains startTime endTime).length =
        setCount serviceName logLevel messageContains startTime endTime ∧
    (Occurs "OFFSET"
        (GetLogsQuery serviceName logLevel messageContains startTime endTime limit offset).1 ↔
      offset > 0) ∧
    GetLogsQuery "" "" "" Time.zero Time.zero 10 0 =
        (baseQuery ++ " ORDER BY timestamp DESC LIMIT $1", [Param.int 10]) := by
  have hd : decide (limit > 0) = true := by simp [h]
  refine ⟨?_, ?_, filterClauses_length _ _ _ _ _, ?_, by decide⟩
  · rw [GetLogsQuery_eq, filterClauses_length]
    by_cases ho : offset > 0 <;>
      simp [pagingClauses, h, ho, clauseIf, renderClauses, String.append_assoc]
  · rw [GetLogsQuery_eq]
    by_cases ho : offset > 0 <;> simp [pagingClauses, h, ho, clauseIf]
  · rw [occurs_iff, GetLogsQuery_statement, hd]
    have := statementOfFlags_offset (decide (serviceName ≠ "")) (decide (logLevel ≠ ""))
      (decide (messageContains ≠ "")) (!startTime.IsZero) (!endTime.IsZero)
      (decide (offset > 0))
    by_cases ho : offset > 0
    · simpa [ho] using this
    · simpa [ho] using this

set_option maxRecDepth 100000 in
/-- C5 at two filters, limit 20 and offset 40. -/
theorem GetLogs_limit_then_offset_witness :
    GetLogsQuery "api" "ERROR" "" Time.zero Time.zero 20 40 =
      (baseQuery ++
        " AND service_name = $1 AND log_level = $2 ORDER BY timestamp DESC LIMIT $3 OFFSET $4",
        [Param.str "api", Param.str "ERROR", Param.int 20, Param.int 40]) ∧
    (Occurs "OFFSET" (GetLogsQuery "api" "ERROR" "" Time.zero Time.zero 20 40).1 ↔
      (40 : Int) > 0) := by
  have h := GetLogs_limit_then_offset "api" "ERROR" "" Time.zero Time.zero 20 40 (by decide)
  exact ⟨by decide, h.2.2.2.1⟩

theorem messagePosition_flags (serviceName logLevel : String) :
    messagePosition serviceName logLevel =
      messagePositionOfFlags (decide (serviceName ≠ "")) (decide (logLevel ≠ "")) := by
  by_cases h1 : serviceName = "" <;> by_cases h2 : logLevel = "" <;>
    simp [messagePosition, messagePositionOfFlags, h1, h2]

set_option maxRecDepth 1000000 in
theorem statementOfFlags_message :
    ∀ b1 b2 b4 b5 bl bo : Bool,
      0 < occurrences (" AND message ILIKE $" ++ toString (messagePositionOfFlags b1 b2 + 1))
        (statementOfFlags b1 b2 true b4 b5 bl bo) := by
  decide

theorem kindsOfFlags_message :
    ∀ b1 b2 b4 b5 bl bo : Bool,
      (kindsOfFlags b1 b2 true b4 b5 bl bo)[messagePositionOfFlags b1 b2]? =
        some ClauseKind.message ∧
      (List.range' 1 (kindsOfFlags b1 b2 true b4 b5 bl bo).length)[messagePositionOfFlags b1 b2]? =
        some (messagePositionOfFlags b1 b2 + 1) := by
  decide

/-- C6: for a non-empty `messageContains` value `v`, the statement built by
`GetLogs` contains the clause ` AND message ILIKE $i`, where `i` is one more
than the number of filters set before it, the placeholder at that position is
`$i`, and bound argument `i` is the string made of `%`, then `v` unchanged,
then `%`. -/
theorem GetLogs_message_pattern (serviceName logLevel messageContains : String)
    (startTime endTime : Time) (limit offset : Int) (h : messageContains ≠ "") :
    Occurs (" AND message ILIKE $" ++ toString (messagePosition serviceName logLevel + 1))
      (GetLogsQuery serviceName logLevel messageContains startTime endTime limit offset).1 ∧
    (clauseKinds (GetLogsQuery serviceName logLevel messageContains startTime endTime
        limit offset).1)[messagePosition serviceName logLevel]? =
      some (some ClauseKind.message) ∧
    (placeholders (GetLogsQuery serviceName logLevel messageContains startTime endTime
        limit offset).1)[messagePosition serviceName logLevel]? =
      some (messagePosition serviceName logLevel + 1) ∧
    (GetLogsQuery serviceName logLevel messageContains startTime endTime
        limit offset).2[messagePosition serviceName logLevel]? =
      some (Param.str ("%" ++ messageContains ++ "%")) ∧
    ("%" ++ messageContains ++ "%").data = '%' :: (messageContains.data ++ ['%']) := by
  have hd : decide (messageContains ≠ "") = true := by simp [h]
  have hk := kindsOfFlags_message (decide (serviceName ≠ "")) (decide (logLevel ≠ ""))
    (!startTime.IsZero) (!endTime.IsZero) (decide (limit > 0)) (decide (offset > 0))
  rw [GetLogsQuery_statement, GetLogsQuery_params, hd, statementOfFlags_kinds,
    statementOfFlags_placeholders, messagePosition_flags, occurs_iff]
  refine ⟨statementOfFlags_message _ _ _ _ _ _, ?_, hk.2, ?_, ?_⟩
  · rw [List.getElem?_map, hk.1]; rfl
  · rw [List.getElem?_map, hk.1]; rfl
  · simp [String.data_append]

/-- C6 at a message filter after a service filter. -/
theorem GetLogs_message_pattern_witness :
    ("timeout" : String) ≠ "" ∧
    (GetLogsQuery "api" "" "timeout" Time.zero Time.zero 0 0).2[1]? =
      some (Param.str "%timeout%") ∧
    Occurs " AND message ILIKE $2"
      (GetLogsQuery "api" "" "timeout" Time.zero Time.zero 0 0).1 := by
  have h := GetLogs_message_pattern "api" "" "timeout" Time.zero Time.zero 0 0 (by decide)
  exact ⟨by decide, h.2.2.2.1, h.1⟩

/-- C8: the statement built by `GetLogs` contains ` ORDER BY timestamp DESC`
exactly once; what precedes it is the base query with every filter clause and
holds no `LIMIT` or `OFFSET`, and what follows it holds the paging clauses
and no filter clause. -/
theorem GetLogs_order_by_once (serviceName logLevel messageContains : String)
    (startTime endTime : Time) (limit offset : Int) :
    occurrences " ORDER BY timestamp DESC"
      (GetLogsQuery serviceName logLevel messageContains startTime endTime limit offset).1 = 1 ∧
    ∃ pre post : String,
      (GetLogsQuery serviceName logLevel messageContains startTime endTime limit offset).1 =
        pre ++ " ORDER BY timestamp DESC" ++ post ∧
      pre = baseQuery ++ renderClauses 1
        ((filterClauses serviceName logLevel messageContains startTime endTime).map Prod.fst) ∧
      post = renderClauses
        ((filterClauses serviceName logLevel messageContains startTime endTime).length + 1)
        ((pagingClauses limit offset).map Prod.fst) ∧
      ¬ Occurs "LIMIT" pre ∧ ¬ Occurs "OFFSET" pre ∧ ¬ Occurs " AND " post := by
  refine ⟨?_, _, _, ?_, rfl, rfl, ?_, ?_, ?_⟩
  · rw [GetLogsQuery_statement]
    exact statementOfFlags_order_by _ _ _ _ _ _ _
  · rw [GetLogsQuery_eq]
  · rw [not_occurs_iff, filterClauses_texts]
    exact (statementOfFlags_parts _ _ _ _ _ false false).1
  · rw [not_occurs_iff, filterClauses_texts]
    exact (statementOfFlags_parts _ _ _ _ _ false false).2.1
  · rw [not_occurs_iff, pagingClauses_texts, ← List.length_map _ Prod.fst, filterClauses_texts]
    exact (statementOfFlags_parts _ _ _ _ _ _ _).2.2

/-! ## Message patterns -/

theorem ilikeMatch_percent (p s : List Char) :
    ilikeMatch ('%' :: p) s = s.tails.any (ilikeMatch p) := by
  simp [ilikeMatch]

theorem ilikeMatch_literal (p : List Char) (hp : ∀ c ∈ p, c ≠ '%' ∧ c ≠ '_') (s : List Char) :
    ilikeMatch (p ++ ['%']) s = true ↔ p.map Char.toLower <+: s.map Char.toLower := by
  induction p generalizing s with
  | nil =>
    simp only [List.nil_append, ilikeMatch_percent, List.map_nil, List.nil_prefix, iff_true,
      List.any_eq_true]
    exact ⟨[], by simp, by simp [ilikeMatch]⟩
  | cons c p ih =>
    have hc := hp c (List.mem_cons_self _ _)
    have ih' := ih (fun d hd => hp d (List.mem_cons_of_mem _ hd))
    cases s with
    | nil => simp [ilikeMatch, hc.1]
    | cons d s' =>
      simp only [List.cons_append, ilikeMatch, hc.1, hc.2, if_false, decide_False,
        Bool.false_or, Bool.and_eq_true, decide_eq_true_eq, ih', List.map_cons,
        List.cons_prefix_cons, List.append_eq]

theorem any_tails_prefix (P s : List Char) :
    (s.tails.any fun t => decide (P <+: t.map Char.toLower)) = true ↔
      P <:+: s.map Char.toLower := by
  induction s with
  | nil => simp
  | cons d s ih =>
    rw [List.tails_cons, List.any_cons, Bool.or_eq_true, ih, List.map_cons, List.infix_cons_iff]
    simp

theorem ilikeMatch_wrapped (v : List Char) (hv : ∀ c ∈ v, c ≠ '%' ∧ c ≠ '_') (m : List Char) :
    ilikeMatch ('%' :: (v ++ ['%'])) m = true ↔
      v.map Char.toLower <:+: m.map Char.toLower := by
  rw [ilikeMatch_percent, ← any_tails_prefix]
  simp only [List.any_eq_true, decide_eq_true_eq]
  constructor
  · rintro ⟨t, ht, h⟩
    exact ⟨t, ht, (ilikeMatch_literal v hv t).mp h⟩
  · rintro ⟨t, ht, h⟩
    exact ⟨t, ht, (ilikeMatch_literal v hv t).mpr h⟩

/-- C7, as stated, fails: the pattern bound for the message filter `_` is
`%_%`, which matches the stored message `a` under `ILIKE`, while `a` does not
contain `_`; likewise the filter `50%` is bound as `%50%%`, which matches
`500` although `500` does not contain `50%`. -/
theorem GetLogs_message_pattern_wildcard_counterexample :
    ((GetLogsQuery "" "" "_" Time.zero Time.zero 0 0).2 = [Param.str "%_%"] ∧
      ILike "%_%" "a" ∧ ¬ ContainsIgnoreCase "_" "a") ∧
    ((GetLogsQuery "" "" "50%" Time.zero Time.zero 0 0).2 = [Param.str "%50%%"] ∧
      ILike "%50%%" "500" ∧ ¬ ContainsIgnoreCase "50%" "500") := by
  decide

/-- C7, amended: for a non-empty message filter `v` that contains neither `%`
nor `_`, the pattern bound by `GetLogs` for `v` matches a stored message `m`
under `ILIKE` exactly when `m` contains `v` as a substring compared without
regard to case. -/
theorem GetLogs_message_pattern_matches_substring
    (serviceName logLevel messageContains : String) (startTime endTime : Time)
    (limit offset : Int) (m : String) (h : messageContains ≠ "")
    (hw : ∀ c ∈ messageContains.data, c ≠ '%' ∧ c ≠ '_') :
    ∃ pat : String,
      (GetLogsQuery serviceName logLevel messageContains startTime endTime
          limit offset).2[messagePosition serviceName logLevel]? = some (Param.str pat) ∧
      (ILike pat m ↔ ContainsIgnoreCase messageContains m) := by
  refine ⟨"%" ++ messageContains ++ "%", ?_, ?_⟩
  · have hd : decide (messageContains ≠ "") = true := by simp [h]
    have hk := kindsOfFlags_message (decide (serviceName ≠ "")) (decide (logLevel ≠ ""))
      (!startTime.IsZero) (!endTime.IsZero) (decide (limit > 0)) (decide (offset > 0))
    rw [GetLogsQuery_params, hd, messagePosition_flags, List.getElem?_map, hk.1]
    rfl
  · have hdata : ("%" ++ messageContains ++ "%").data = '%' :: (messageContains.data ++ ['%']) := by
      simp [String.data_append]
    unfold ILike ContainsIgnoreCase
    rw [hdata]
    exact ilikeMatch_wrapped messageContains.data hw m.data

/-- C7, amended, at the filter `timeout`: it matches `Timeout occurred` and
`connection TIMEOUT`. -/
theorem GetLogs_message_pattern_matches_substring_witness :
    (GetLogsQuery "" "" "timeout" Time.zero Time.zero 0 0).2[0]? =
      some (Param.str "%timeout%") ∧
    (ILike "%timeout%" "Timeout occurred" ↔ ContainsIgnoreCase "timeout" "Timeout occurred") ∧
    ILike "%timeout%" "Timeout occurred" ∧ ILike "%timeout%" "connection TIMEOUT" := by
  obtain ⟨pat, h1, h2⟩ := GetLogs_message_pattern_matches_substring "" "" "timeout"
    Time.zero Time.zero 0 0 "Timeout occurred" (by decide) (by decide)
  have hp : pat = "%timeout%" := by
    have h3 : (GetLogsQuery "" "" "timeout" Time.zero Time.zero 0 0).2[0]? =
        some (Param.str "%timeout%") := by decide
    have h4 : messagePosition "" "" = 0 := by decide
    rw [h4, h3] at h1
    injection h1 with h1
    injection h1 with h1
    exact h1.symm
  subst hp
  exact ⟨by decide, h2, by decide, by decide⟩

/-! ## Validation and the write handler -/

theorem validLevels_iff (level : String) : validLevels level = true ↔ level ∈ logLevels := by
  simp [validLevels, logLevels, or_assoc]

/-- C9: `validateLogEntry` returns an error exactly when the service name is
empty, or the message is empty, or the level is non-empty and not one of
DEBUG, INFO, WARN, ERROR, FATAL. The text is `service name is required`
whenever the service name is empty, `message is required` when only the
message is empty, and `invalid log level: ` followed by the level when both
are non-empty and the level is invalid; level `TRACE` is reported so and
level `WARN` passes. -/
theorem validateLogEntry_spec (logEntry : Log) :
    (validateLogEntry logEntry ≠ none ↔
      logEntry.ServiceName = "" ∨ logEntry.Message = "" ∨
        (logEntry.LogLevel ≠ "" ∧ logEntry.LogLevel ∉ logLevels)) ∧
    (logEntry.ServiceName = "" →
      validateLogEntry logEntry = some "service name is required") ∧
    (logEntry.ServiceName ≠ "" → logEntry.Message = "" →
      validateLogEntry logEntry = some "message is required") ∧
    (logEntry.ServiceName ≠ "" → logEntry.Message ≠ "" → logEntry.LogLevel ≠ "" →
      logEntry.LogLevel ∉ logLevels →
      validateLogEntry logEntry = some ("invalid log level: " ++ logEntry.LogLevel)) ∧
    validateLogEntry { Log.empty with ServiceName := "api", Message := "m", LogLevel := "TRACE" } =
      some "invalid log level: TRACE" ∧
    validateLogEntry { Log.empty with ServiceName := "api", Message := "m", LogLevel := "WARN" } =
      none ∧
    validateLogEntry { Log.empty with ServiceName := "api", Message := "m" } = none := by
  refine ⟨?_, ?_, ?_, ?_, by decide, by decide, by decide⟩
  · unfold validateLogEntry
    by_cases h1 : logEntry.ServiceName = ""
    · simp [h1]
    · by_cases h2 : logEntry.Message = ""
      · simp [h1, h2]
      · by_cases h3 : logEntry.LogLevel = ""
        · simp [h1, h2, h3]
        · by_cases h4 : validLevels logEntry.LogLevel = true
          · simp [h1, h2, h3, h4, (validLevels_iff _).mp h4]
          · have h5 : logEntry.LogLevel ∉ logLevels := fun hm => h4 ((validLevels_iff _).mpr hm)
            simp [h1, h2, h3, h4, h5]
  · intro h1
    simp [validateLogEntry, h1]
  · intro h1 h2
    simp [validateLogEntry, h1, h2]
  · intro h1 h2 h3 h4
    have h5 : validLevels logEntry.LogLevel = false := by
      cases hv : validLevels logEntry.LogLevel
      · rfl
      · exact absurd ((validLevels_iff _).mp hv) h4
    simp [validateLogEntry, h1, h2, h3, h5]

theorem validateLogEntry_none {logEntry : Log} (h : validateLogEntry logEntry = none) :
    logEntry.ServiceName ≠ "" ∧ logEntry.Message ≠ "" ∧
      (logEntry.LogLevel = "" ∨ logEntry.LogLevel ∈ logLevels) := by
  unfold validateLogEntry at h
  by_cases h1 : logEntry.ServiceName = ""
  · simp [h1] at h
  · by_cases h2 : logEntry.Message = ""
    · simp [h1, h2] at h
    · refine ⟨h1, h2, ?_⟩
      by_cases h3 : logEntry.LogLevel = ""
      · exact Or.inl h3
      · right
        rw [← validLevels_iff]
        simpa [h1, h2, h3] using h

theorem PostLog.normalize_frame (now : Time) (logEntry : Log) :
    (PostLog.normalize now logEntry).ServiceName = logEntry.ServiceName ∧
    (PostLog.normalize now logEntry).LogLevel = logEntry.LogLevel ∧
    (PostLog.normalize now logEntry).Message = logEntry.Message := by
  unfold PostLog.normalize
  simp only []
  refine ⟨?_, ?_, ?_⟩ <;> (repeat' split) <;> rfl

theorem PostLog_inserts (db : InsertArgs → Except String Int) (now : Time) (logEntry : Log) :
    (PostLog db now logEntry).inserts =
      [{ serviceName := logEntry.ServiceName
         logLevel := logEntry.LogLevel
         message := logEntry.Message
         timestamp := (PostLog.normalize now logEntry).Timestamp
         traceID := (PostLog.normalize now logEntry).TraceID
         spanID := (PostLog.normalize now logEntry).SpanID
         metadata := (PostLog.normalize now logEntry).Metadata }] := by
  obtain ⟨h1, h2, h3⟩ := PostLog.normalize_frame now logEntry
  unfold PostLog
  simp only [h1, h2, h3]
  split <;> rfl

/-- C10: in `PostLogHandler` a record that fails `validateLogEntry` never
reaches the store: no INSERT is made and the response is 400 with the
validation message. Every INSERT the handler makes carries a non-empty
service name, a non-empty message, and a level that is empty or one of
DEBUG, INFO, WARN, ERROR, FATAL. -/
theorem PostLogHandler_validates_before_insert (db : InsertArgs → Except String Int)
    (now : Time) (method : String) (decoded : Except String Log) :
    (∀ logEntry msg, decoded = Except.ok logEntry → validateLogEntry logEntry = some msg →
      (PostLogHandler db now method decoded).2 = [] ∧
      (method = "POST" →
        PostLogHandler db now method decoded = (Response.error msg 400, []))) ∧
    (∀ args ∈ (PostLogHandler db now method decoded).2,
      (∃ logEntry, decoded = Except.ok logEntry ∧ validateLogEntry logEntry = none ∧
        (PostLog db now logEntry).inserts = [args]) ∧
      args.serviceName ≠ "" ∧ args.message ≠ "" ∧
        (args.logLevel = "" ∨ args.logLevel ∈ logLevels)) := by
  constructor
  · intro logEntry msg hd hv
    subst hd
    by_cases hm : method = "POST" <;> simp [PostLogHandler, hm, hv]
  · intro args hargs
    unfold PostLogHandler at hargs
    by_cases hm : method = "POST"
    · cases decoded with
      | error e => simp [hm] at hargs
      | ok logEntry =>
        cases hv : validateLogEntry logEntry with
        | some msg => simp [hm, hv] at hargs
        | none =>
          have hmem : args ∈ (PostLog db now logEntry).inserts := by
            simp only [hm, hv, ne_eq, not_true_eq_false, if_false] at hargs
            split at hargs <;> exact hargs
          have hins := PostLog_inserts db now logEntry
          rw [hins, List.mem_singleton] at hmem
          obtain ⟨h1, h2, h3⟩ := validateLogEntry_none hv
          refine ⟨⟨logEntry, rfl, hv, ?_⟩, ?_, ?_, ?_⟩
          · rw [hins, hmem]
          · rw [hmem]; exact h1
          · rw [hmem]; exact h2
          · rw [hmem]; exact h3
    · simp [hm] at hargs

/-- C10 at two requests: a record with an empty message is answered 400
`message is required` without any INSERT; a valid record is inserted once,
with its service name, level and message. -/
theorem PostLogHandler_validates_before_insert_witness :
    PostLogHandler (fun _ => Except.ok 7) ⟨100, 0⟩ "POST"
        (Except.ok { Log.empty with ServiceName := "api", LogLevel := "INFO" }) =
      (Response.error "message is required" 400, []) ∧
    (PostLogHandler (fun _ => Except.ok 7) ⟨100, 0⟩ "POST"
        (Except.ok { Log.empty with ServiceName := "api", LogLevel := "INFO", Message := "up" })).2 =
      [{ serviceName := "api", logLevel := "INFO", message := "up", timestamp := ⟨100, 0⟩,
         traceID := ⟨"", false⟩, spanID := ⟨"", false⟩, metadata := some "\x7b\x7d" }] := by
  refine ⟨?_, by decide⟩
  exact ((PostLogHandler_validates_before_insert (fun _ => Except.ok 7) ⟨100, 0⟩ "POST"
    (Except.ok { Log.empty with ServiceName := "api", LogLevel := "INFO" })).1 _ _ rfl
      (by decide)).2 rfl

/-! ## Normalisation before the insert -/

theorem string_length_eq_zero (s : String) : s.length = 0 ↔ s = "" := by
  cases s with
  | mk data =>
    cases data with
    | nil => simp
    | cons c cs => simp [String.length, String.ext_iff]

theorem PostLog.normalize_eq (now : Time) (logEntry : Log) :
    PostLog.normalize now logEntry =
      { ID := logEntry.ID
        ServiceName := logEntry.ServiceName
        LogLevel := logEntry.LogLevel
        Message := logEntry.Message
        Timestamp := if logEntry.Timestamp.IsZero then now else logEntry.Timestamp
        TraceID := ⟨logEntry.TraceID.String, decide (logEntry.TraceID.String ≠ "")⟩
        SpanID := ⟨logEntry.SpanID.String, decide (logEntry.SpanID.String ≠ "")⟩
        Metadata :=
          if logEntry.Metadata = none ∨ logEntry.Metadata = some "" then some "\x7b\x7d"
          else logEntry.Metadata } := by
  obtain ⟨id, sn, lv, msg, ts, ⟨tr, trv⟩, ⟨sp, spv⟩, md⟩ := logEntry
  unfold PostLog.normalize
  by_cases h1 : ts.IsZero = true <;> by_cases h2 : tr = "" <;> by_cases h3 : sp = "" <;>
    cases md with
    | none => simp [h1, h2, h3]
    | some m =>
      by_cases h4 : m = ""
      · simp [h1, h2, h3, h4]
      · have h5 : ¬ m.length = 0 := fun h => h4 ((string_length_eq_zero m).mp h)
        simp [h1, h2, h3, h4, h5]

theorem PostLog_inserts_eq (db : InsertArgs → Except String Int) (now : Time) (logEntry : Log) :
    (PostLog db now logEntry).inserts =
      [{ serviceName := logEntry.ServiceName
         logLevel := logEntry.LogLevel
         message := logEntry.Message
         timestamp := if logEntry.Timestamp.IsZero then now else logEntry.Timestamp
         traceID := ⟨logEntry.TraceID.String, decide (logEntry.TraceID.String ≠ "")⟩
         spanID := ⟨logEntry.SpanID.String, decide (logEntry.SpanID.String ≠ "")⟩
         metadata :=
           if logEntry.Metadata = none ∨ logEntry.Metadata = some "" then some "\x7b\x7d"
           else logEntry.Metadata }] := by
  rw [PostLog_inserts, PostLog.normalize_eq]

/-- C11, as stated, fails: `PostLog` itself checks nothing, so a record with
an empty service name and an empty message is passed to the INSERT with both
empty. -/
theorem PostLog_inserts_empty_fields_counterexample :
    ∃ args : InsertArgs,
      (PostLog (fun _ => Except.ok 1) ⟨100, 0⟩ Log.empty).inserts = [args] ∧
      args.serviceName = "" ∧ args.message = "" :=
  ⟨{ serviceName := "", logLevel := "", message := "", timestamp := ⟨100, 0⟩,
     traceID := ⟨"", false⟩, spanID := ⟨"", false⟩, metadata := some "\x7b\x7d" },
    by decide, rfl, rfl⟩

/-- C11, amended: for every record that passes `validateLogEntry`, as every
record that `PostLogHandler` gives to `PostLog` does, `PostLog` makes one
INSERT, whose service name and message arguments are those of the record and
are both non-empty. -/
theorem PostLog_insert_fields_nonempty (db : InsertArgs → Except String Int) (now : Time)
    (logEntry : Log) (h : validateLogEntry logEntry = none) :
    ∃ args : InsertArgs,
      (PostLog db now logEntry).inserts = [args] ∧
      args.serviceName = logEntry.ServiceName ∧ args.message = logEntry.Message ∧
      args.serviceName ≠ "" ∧ args.message ≠ "" := by
  obtain ⟨h1, h2, _⟩ := validateLogEntry_none h
  exact ⟨_, PostLog_inserts_eq db now logEntry, rfl, rfl, h1, h2⟩

/-- C11, amended, at a valid record. -/
theorem PostLog_insert_fields_nonempty_witness :
    ∃ args : InsertArgs,
      (PostLog (fun _ => Except.ok 1) ⟨100, 0⟩
        { Log.empty with ServiceName := "api", Message := "up" }).inserts = [args] ∧
      args.serviceName = "api" ∧ args.message = "up" ∧
      args.serviceName ≠ "" ∧ args.message ≠ "" :=
  PostLog_insert_fields_nonempty (fun _ => Except.ok 1) ⟨100, 0⟩
    { Log.empty with ServiceName := "api", Message := "up" } (by decide)

/-- C12: after the normalisation of `PostLog` the trace identifier is valid
exactly when its string is non-empty, and so is the span identifier, whatever
the flags were before; the two strings are unchanged. The INSERT receives the
normalised identifiers, so an empty trace identifier reaches the store as
null and a non-empty one as its string. -/
theorem PostLog_normalize_identifiers (db : InsertArgs → Except String Int) (now : Time)
    (logEntry : Log) :
    ((PostLog.normalize now logEntry).TraceID.Valid = true ↔ logEntry.TraceID.String ≠ "") ∧
    ((PostLog.normalize now logEntry).SpanID.Valid = true ↔ logEntry.SpanID.String ≠ "") ∧
    (PostLog.normalize now logEntry).TraceID.String = logEntry.TraceID.String ∧
    (PostLog.normalize now logEntry).SpanID.String = logEntry.SpanID.String ∧
    ∃ args : InsertArgs,
      (PostLog db now logEntry).inserts = [args] ∧
      args.traceID = (PostLog.normalize now logEntry).TraceID ∧
      args.spanID = (PostLog.normalize now logEntry).SpanID ∧
      (logEntry.TraceID.String = "" → NullStringValue args.traceID = none) ∧
      (logEntry.TraceID.String ≠ "" →
        NullStringValue args.traceID = some logEntry.TraceID.String) ∧
      (logEntry.SpanID.String = "" → NullStringValue args.spanID = none) ∧
      (logEntry.SpanID.String ≠ "" →
        NullStringValue args.spanID = some logEntry.SpanID.String) := by
  refine ⟨?_, ?_, ?_, ?_, _, PostLog_inserts_eq db now logEntry, ?_, ?_, ?_, ?_, ?_, ?_⟩
  · rw [PostLog.normalize_eq]; simp
  · rw [PostLog.normalize_eq]; simp
  · rw [PostLog.normalize_eq]
  · rw [PostLog.normalize_eq]
  · rw [PostLog.normalize_eq]
  · rw [PostLog.normalize_eq]
  · intro h; simp [NullStringValue, h]
  · intro h; simp [NullStringValue, h]
  · intro h; simp [NullStringValue, h]
  · intro h; simp [NullStringValue, h]

/-- C13: after the normalisation of `PostLog` the metadata is never nil and
never of length zero: it is the two bytes of the empty JSON object when the
input metadata was nil or empty, and the input metadata unchanged
otherwise. -/
theorem PostLog_normalize_metadata (now : Time) (logEntry : Log) :
    (logEntry.Metadata = none ∨ logEntry.Metadata = some "" →
      (PostLog.normalize now logEntry).Metadata = some "\x7b\x7d") ∧
    (¬ (logEntry.Metadata = none ∨ logEntry.Metadata = some "") →
      (PostLog.normalize now logEntry).Metadata = logEntry.Metadata) ∧
    ∃ md : String,
      (PostLog.normalize now logEntry).Metadata = some md ∧ md ≠ "" ∧ 0 < md.length := by
  rw [PostLog.normalize_eq]
  refine ⟨fun h => by simp [h], fun h => by simp [h], ?_⟩
  by_cases h : logEntry.Metadata = none ∨ logEntry.Metadata = some ""
  · exact ⟨"\x7b\x7d", by simp [h], by decide, by decide⟩
  · cases hm : logEntry.Metadata with
    | none => exact absurd (Or.inl hm) h
    | some m =>
      have hne : m ≠ "" := fun he => h (Or.inr (by rw [hm, he]))
      refine ⟨m, ?_, hne, ?_⟩
      · simp [hne]
      · have hl : m.length ≠ 0 := fun he => hne ((string_length_eq_zero m).mp he)
        omega

theorem GetLogs.rowMetadata_eq (metadataBytes : String) :
    GetLogs.rowMetadata metadataBytes =
      if metadataBytes = "" then some "\x7b\x7d" else some metadataBytes := by
  unfold GetLogs.rowMetadata
  by_cases h : metadataBytes = ""
  · subst h; decide
  · have hl : metadataBytes.length ≠ 0 := fun he => h ((string_length_eq_zero _).mp he)
    have hpos : metadataBytes.length > 0 := by omega
    simp [h, hpos]

/-- C14: for every record, the metadata normalised by `PostLog`, stored
unchanged and mapped back by `GetLogs` is the normalised metadata again, and
is the empty JSON object when the record had nil or empty metadata; the
outbound mapping alone gives the empty JSON object for empty stored bytes
and the stored bytes otherwise. -/
theorem metadata_round_trip (now : Time) (logEntry : Log) :
    (∃ stored : String,
      (PostLog.normalize now logEntry).Metadata = some stored ∧
      GetLogs.rowMetadata stored = (PostLog.normalize now logEntry).Metadata ∧
      (logEntry.Metadata = none ∨ logEntry.Metadata = some "" →
        GetLogs.rowMetadata stored = some "\x7b\x7d")) ∧
    GetLogs.rowMetadata "" = some "\x7b\x7d" ∧
    ∀ metadataBytes : String, metadataBytes ≠ "" →
      GetLogs.rowMetadata metadataBytes = some metadataBytes := by
  refine ⟨?_, by decide, fun b hb => by rw [GetLogs.rowMetadata_eq]; simp [hb]⟩
  rw [PostLog.normalize_eq]
  by_cases h : logEntry.Metadata = none ∨ logEntry.Metadata = some ""
  · exact ⟨"\x7b\x7d", by simp [h], by simp only [h, if_true]; decide, fun _ => by decide⟩
  · cases hm : logEntry.Metadata with
    | none => exact absurd (Or.inl hm) h
    | some m =>
      have hne : m ≠ "" := fun he => h (Or.inr (by rw [hm, he]))
      refine ⟨m, by simp [hne], ?_, fun hc => ?_⟩
      · rw [GetLogs.rowMetadata_eq]; simp [hne]
      · rw [hm] at h; exact absurd hc h

/-- C15: with `now` the reading of the clock, the normalisation of `PostLog`
sets a zero timestamp to `now` and leaves a non-zero timestamp unchanged; the
timestamp of the INSERT is the normalised one. -/
theorem PostLog_normalize_timestamp (db : InsertArgs → Except String Int) (now : Time)
    (logEntry : Log) :
    (logEntry.Timestamp.IsZero = true → (PostLog.normalize now logEntry).Timestamp = now) ∧
    (logEntry.Timestamp.IsZero = false →
      (PostLog.normalize now logEntry).Timestamp = logEntry.Timestamp) ∧
    ∃ args : InsertArgs,
      (PostLog db now logEntry).inserts = [args] ∧
      args.timestamp = (PostLog.normalize now logEntry).Timestamp := by
  refine ⟨fun h => ?_, fun h => ?_, _, PostLog_inserts_eq db now logEntry, ?_⟩
  · rw [PostLog.normalize_eq]; simp [h]
  · rw [PostLog.normalize_eq]; simp [h]
  · rw [PostLog.normalize_eq]

/-- C20: the normalisation of `PostLog` leaves the service name, the level,
the message, the two identifier strings and the identifier of the record
unchanged, so `validateLogEntry` gives the same result after it as before,
and a record that passed validation still passes it when it is inserted. -/
theorem PostLog_normalize_preserves_validation (now : Time) (logEntry : Log) :
    (PostLog.normalize now logEntry).ServiceName = logEntry.ServiceName ∧
    (PostLog.normalize now logEntry).LogLevel = logEntry.LogLevel ∧
    (PostLog.normalize now logEntry).Message = logEntry.Message ∧
    (PostLog.normalize now logEntry).TraceID.String = logEntry.TraceID.String ∧
    (PostLog.normalize now logEntry).SpanID.String = logEntry.SpanID.String ∧
    (PostLog.normalize now logEntry).ID = logEntry.ID ∧
    validateLogEntry (PostLog.normalize now logEntry) = validateLogEntry logEntry ∧
    (validateLogEntry logEntry = none →
      validateLogEntry (PostLog.normalize now logEntry) = none) := by
  have hv : validateLogEntry (PostLog.normalize now logEntry) = validateLogEntry logEntry := by
    rw [PostLog.normalize_eq]; rfl
  refine ⟨?_, ?_, ?_, ?_, ?_, ?_, hv, fun h => hv.trans h⟩ <;> rw [PostLog.normalize_eq]

/-! ## Reading rows back -/

theorem GetLogs.scanRows_elems (rows : List (Except String ScannedRow)) (logs : Slice Log) :
    (GetLogs.scanRows rows logs).elems = logs.elems ++ scannedLogs rows := by
  induction rows generalizing logs with
  | nil => simp [GetLogs.scanRows, scannedLogs]
  | cons row rows ih =>
    cases row with
    | error e =>
      rw [GetLogs.scanRows, ih]
      simp [scannedLogs]
    | ok r =>
      rw [GetLogs.scanRows, ih]
      simp [scannedLogs, Slice.append, Slice.elems]

theorem scannedLogs_length (rows : List (Except String ScannedRow)) :
    (scannedLogs rows).length = scannedCount rows := by
  induction rows with
  | nil => rfl
  | cons row rows ih =>
    cases row with
    | error e =>
      simpa [scannedLogs, scannedCount] using ih
    | ok r =>
      simpa [scannedLogs, scannedCount] using ih

/-- C16: when the query succeeds with the rows `rows`, each of which scans or
fails to scan, `GetLogs` returns no error and exactly the records of the rows
that scan, in the order of the rows: a failing row is dropped and changes
nothing else; the number of records is the number of rows that scan. -/
theorem GetLogs_skips_failed_rows
    (db : String → List Param → Except String (List (Except String ScannedRow)))
    (serviceName logLevel messageContains : String) (startTime endTime : Time)
    (limit offset : Int) (rows : List (Except String ScannedRow))
    (h : db (GetLogsQuery serviceName logLevel messageContains startTime endTime limit offset).1
        (GetLogsQuery serviceName logLevel messageContains startTime endTime limit offset).2 =
      Except.ok rows) :
    (GetLogs db serviceName logLevel messageContains startTime endTime limit offset).err =
      none ∧
    (GetLogs db serviceName logLevel messageContains startTime endTime limit offset).logs.elems =
      scannedLogs rows ∧
    (GetLogs db serviceName logLevel messageContains startTime endTime
      limit offset).logs.elems.length = scannedCount rows ∧
    (∀ (before after : List (Except String ScannedRow)) (e : String),
      scannedLogs (before ++ Except.error e :: after) = scannedLogs (before ++ after)) ∧
    (∀ (before after : List (Except String ScannedRow)) (r : ScannedRow),
      scannedLogs (before ++ Except.ok r :: after) =
        scannedLogs before ++ GetLogs.rowLog r :: scannedLogs after) := by
  have hl : (GetLogs db serviceName logLevel messageContains startTime endTime
      limit offset).logs.elems = scannedLogs rows := by
    unfold GetLogs
    simp only [h]
    rw [GetLogs.scanRows_elems]
    rfl
  refine ⟨?_, hl, ?_, ?_, ?_⟩
  · unfold GetLogs
    simp only [h]
  · rw [hl, scannedLogs_length]
  · intro before after e
    simp [scannedLogs, List.filterMap_append]
  · intro before after r
    simp [scannedLogs, List.filterMap_append]

/-- C16 at three rows of which the second fails to scan. -/
theorem GetLogs_skips_failed_rows_witness :
    (GetLogs (fun _ _ => Except.ok
        [Except.ok ⟨1, "api", "INFO", "up", ⟨9, 0⟩, ⟨"", false⟩, ⟨"", false⟩, ""⟩,
         Except.error "bad row",
         Except.ok ⟨3, "db", "WARN", "slow", ⟨8, 0⟩, ⟨"t", true⟩, ⟨"", false⟩, "[1]"⟩])
      "" "" "" Time.zero Time.zero 100 0).logs.elems =
      [{ ID := 1, ServiceName := "api", LogLevel := "INFO", Message := "up",
         Timestamp := ⟨9, 0⟩, TraceID := ⟨"", false⟩, SpanID := ⟨"", false⟩,
         Metadata := some "\x7b\x7d" },
       { ID := 3, ServiceName := "db", LogLevel := "WARN", Message := "slow",
         Timestamp := ⟨8, 0⟩, TraceID := ⟨"t", true⟩, SpanID := ⟨"", false⟩,
         Metadata := some "[1]" }] := by
  have h := (GetLogs_skips_failed_rows (fun _ _ => Except.ok
        [Except.ok ⟨1, "api", "INFO", "up", ⟨9, 0⟩, ⟨"", false⟩, ⟨"", false⟩, ""⟩,
         Except.error "bad row",
         Except.ok ⟨3, "db", "WARN", "slow", ⟨8, 0⟩, ⟨"t", true⟩, ⟨"", false⟩, "[1]"⟩])
      "" "" "" Time.zero Time.zero 100 0 _ rfl).2.1
  rw [h]
  decide

/-! ## The handlers -/

theorem GetLogs.scanRows_none (rows : List (Except String ScannedRow)) (logs : Slice Log)
    (h : scannedCount rows = 0) : GetLogs.scanRows rows logs = logs := by
  induction rows generalizing logs with
  | nil => rfl
  | cons row rows ih =>
    cases row with
    | error e =>
      rw [GetLogs.scanRows]
      exact ih logs (by simpa [scannedCount] using h)
    | ok r => simp [scannedCount] at h

/-- C17, on the code: when the query succeeds and no row scans (in particular
when there is no row), `GetLogs` returns the nil slice and `GetLogsHandler`
encodes it; the encoding of the nil slice is `null`, not `[]`. -/
theorem GetLogsHandler_no_records_encodes_null
    (db : String → List Param → Except String (List (Except String ScannedRow)))
    (parseTime : String → Option Time) (atoi : String → Option Int) (query : String → String)
    (rows : List (Except String ScannedRow))
    (hdb : ∀ stmt params, db stmt params = Except.ok rows) (hrows : scannedCount rows = 0) :
    (GetLogsHandler db parseTime atoi query).1 = ListResponse.json Slice.nil ∧
    ∀ encodeElem : Log → String,
      encodeSlice encodeElem Slice.nil = "null\n" ∧
      encodeSlice encodeElem (Slice.of []) = "[]\n" ∧
      encodeSlice encodeElem Slice.nil ≠ encodeSlice encodeElem (Slice.of []) := by
  constructor
  · unfold GetLogsHandler GetLogs
    simp only [hdb, GetLogs.scanRows_none rows Slice.nil hrows]
  · intro encodeElem
    have h1 : encodeSlice encodeElem Slice.nil = "null\n" := rfl
    have h2 : encodeSlice encodeElem (Slice.of []) = "[]\n" := by
      show "[" ++ ",".intercalate [] ++ "]\n" = "[]\n"
      decide
    refine ⟨h1, h2, ?_⟩
    rw [h1, h2]
    decide

/-- C17, on the code, at a result without rows. -/
theorem GetLogsHandler_no_records_encodes_null_witness :
    (GetLogsHandler (fun _ _ => Except.ok []) (fun _ => none) Atoi (fun _ => "")).1 =
      ListResponse.json Slice.nil ∧
    encodeSlice (fun _ : Log => "") Slice.nil = "null\n" :=
  ⟨(GetLogsHandler_no_records_encodes_null (fun _ _ => Except.ok []) (fun _ => none) Atoi
      (fun _ => "") [] (fun _ _ => rfl) rfl).1, rfl⟩

theorem occurs_mid (pat a b c : String) (h : Occurs pat b) : Occurs pat (a ++ b ++ c) := by
  unfold Occurs at *
  rw [String.data_append, String.data_append]
  exact h.trans (List.infix_append _ _ _)

theorem GetLogsQuery_limit (serviceName logLevel messageContains : String)
    (startTime endTime : Time) (limit offset : Int) (h : limit > 0) :
    Occurs "LIMIT"
      (GetLogsQuery serviceName logLevel messageContains startTime endTime limit offset).1 ∧
    Param.int limit ∈
      (GetLogsQuery serviceName logLevel messageContains startTime endTime limit offset).2 := by
  rw [GetLogsQuery_eq]
  constructor
  · simp only [pagingClauses, h, if_true, List.map_cons, renderClauses]
    rw [String.append_assoc " LIMIT $", ← String.append_assoc _ " LIMIT $"]
    exact occurs_mid "LIMIT" _ " LIMIT $" _ (by decide)
  · simp [pagingClauses, h]

theorem GetLogs_queries
    (db : String → List Param → Except String (List (Except String ScannedRow)))
    (serviceName logLevel messageContains : String) (startTime endTime : Time)
    (limit offset : Int) :
    (GetLogs db serviceName logLevel messageContains startTime endTime limit offset).queries =
      [GetLogsQuery serviceName logLevel messageContains startTime endTime limit offset] := by
  unfold GetLogs
  simp only []
  split <;> rfl

theorem GetLogsHandler_queries
    (db : String → List Param → Except String (List (Except String ScannedRow)))
    (parseTime : String → Option Time) (atoi : String → Option Int) (query : String → String) :
    (GetLogsHandler db parseTime atoi query).2 =
      [GetLogsQuery (query "service") (query "level") (query "message")
        (GetLogsHandler.time parseTime (query "start_time"))
        (GetLogsHandler.time parseTime (query "end_time"))
        (GetLogsHandler.limit atoi (query "limit"))
        (GetLogsHandler.offset atoi (query "offset"))] := by
  rw [← GetLogs_queries db]
  unfold GetLogsHandler
  simp only []
  split <;> rfl

theorem GetLogsHandler.limit_pos (atoi : String → Option Int) (limitStr : String) :
    GetLogsHandler.limit atoi limitStr > 0 := by
  unfold GetLogsHandler.limit
  by_cases h : limitStr = ""
  · simp [h]
  · cases ha : atoi limitStr with
    | none => simp [h]
    | some p =>
      by_cases hp : p > 0
      · simp [h, hp]
      · simp [h, hp]

/-- C18: the limit `GetLogsHandler` passes to `GetLogs` is 100 when the
`limit` parameter is omitted, when it does not parse as an integer, and when
it parses to zero or a negative number, and is the parsed integer otherwise.
It is therefore always positive, and the one statement sent to the store for
a request contains a `LIMIT` clause whose bound argument is that limit. -/
theorem GetLogsHandler_limit_default
    (db : String → List Param → Except String (List (Except String ScannedRow)))
    (parseTime : String → Option Time) (atoi : String → Option Int) (query : String → String) :
    (query "limit" = "" → GetLogsHandler.limit atoi (query "limit") = 100) ∧
    (atoi (query "limit") = none → GetLogsHandler.limit atoi (query "limit") = 100) ∧
    (∀ parsed, atoi (query "limit") = some parsed → parsed ≤ 0 →
      GetLogsHandler.limit atoi (query "limit") = 100) ∧
    (∀ parsed, query "limit" ≠ "" → atoi (query "limit") = some parsed → parsed > 0 →
      GetLogsHandler.limit atoi (query "limit") = parsed) ∧
    GetLogsHandler.limit atoi (query "limit") > 0 ∧
    ∃ stmt params,
      (GetLogsHandler db parseTime atoi query).2 = [(stmt, params)] ∧
      (stmt, params) =
        GetLogsQuery (query "service") (query "level") (query "message")
          (GetLogsHandler.time parseTime (query "start_time"))
          (GetLogsHandler.time parseTime (query "end_time"))
          (GetLogsHandler.limit atoi (query "limit"))
          (GetLogsHandler.offset atoi (query "offset")) ∧
      Occurs "LIMIT" stmt ∧
      Param.int (GetLogsHandler.limit atoi (query "limit")) ∈ params := by
  refine ⟨?_, ?_, ?_, ?_, GetLogsHandler.limit_pos _ _, ?_⟩
  · intro h
    simp [GetLogsHandler.limit, h]
  · intro h
    simp [GetLogsHandler.limit, h]
  · intro p hp hle
    have : ¬ p > 0 := by omega
    simp [GetLogsHandler.limit, hp, this]
  · intro p hne hp hpos
    simp [GetLogsHandler.limit, hne, hp, hpos]
  · have hq := GetLogsQuery_limit (query "service") (query "level") (query "message")
      (GetLogsHandler.time parseTime (query "start_time"))
      (GetLogsHandler.time parseTime (query "end_time"))
      (GetLogsHandler.limit atoi (query "limit"))
      (GetLogsHandler.offset atoi (query "offset")) (GetLogsHandler.limit_pos _ _)
    exact ⟨_, _, GetLogsHandler_queries db parseTime atoi query, rfl, hq.1, hq.2⟩

/-- C18 at the parameter values `25`, `0`, `-5`, `abc` and the omitted
parameter, with `Atoi` for the parser. -/
theorem GetLogsHandler_limit_default_witness :
    GetLogsHandler.limit Atoi "25" = 25 ∧ GetLogsHandler.limit Atoi "0" = 100 ∧
    GetLogsHandler.limit Atoi "-5" = 100 ∧ GetLogsHandler.limit Atoi "abc" = 100 ∧
    GetLogsHandler.limit Atoi "" = 100 := by
  have h := GetLogsHandler_limit_default (fun _ _ => Except.ok []) (fun _ => none) Atoi
    (fun key => if key = "limit" then "25" else "")
  exact ⟨h.2.2.2.1 25 (by decide) (by decide) (by decide), by decide, by decide, by decide,
    by decide⟩

theorem PostLog_eq (db : InsertArgs → Except String Int) (now : Time) (logEntry : Log) :
    PostLog db now logEntry =
      match db (insertArgsOf (PostLog.normalize now logEntry)) with
      | Except.ok id =>
        { logEntry := { PostLog.normalize now logEntry with ID := id }, err := none,
          inserts := [insertArgsOf (PostLog.normalize now logEntry)] }
      | Except.error e =>
        { logEntry := PostLog.normalize now logEntry, err := some e,
          inserts := [insertArgsOf (PostLog.normalize now logEntry)] } := rfl

theorem PostLogHandler_cases (db : InsertArgs → Except String Int) (now : Time)
    (method : String) (decoded : Except String Log) :
    (method ≠ "POST" →
      PostLogHandler db now method decoded = (Response.error "Method not allowed" 405, [])) ∧
    (method = "POST" → ∀ e, decoded = Except.error e →
      PostLogHandler db now method decoded =
        (Response.error "Invalid request body" 400, [])) ∧
    (method = "POST" → ∀ logEntry msg, decoded = Except.ok logEntry →
      validateLogEntry logEntry = some msg →
      PostLogHandler db now method decoded = (Response.error msg 400, [])) ∧
    (method = "POST" → ∀ logEntry e, decoded = Except.ok logEntry →
      validateLogEntry logEntry = none →
      db (insertArgsOf (PostLog.normalize now logEntry)) = Except.error e →
      PostLogHandler db now method decoded =
        (Response.error "Failed to save log" 500,
          [insertArgsOf (PostLog.normalize now logEntry)])) ∧
    (method = "POST" → ∀ logEntry id, decoded = Except.ok logEntry →
      validateLogEntry logEntry = none →
      db (insertArgsOf (PostLog.normalize now logEntry)) = Except.ok id →
      PostLogHandler db now method decoded =
        (Response.json 201 { PostLog.normalize now logEntry with ID := id },
          [insertArgsOf (PostLog.normalize now logEntry)])) := by
  refine ⟨?_, ?_, ?_, ?_, ?_⟩
  · intro hm
    simp [PostLogHandler, hm]
  · intro hm e hd
    simp [PostLogHandler, hm, hd]
  · intro hm logEntry msg hd hv
    simp [PostLogHandler, hm, hd, hv]
  · intro hm logEntry e hd hv hdb
    simp [PostLogHandler, hm, hd, hv, PostLog_eq, hdb]
  · intro hm logEntry id hd hv hdb
    simp [PostLogHandler, hm, hd, hv, PostLog_eq, hdb]

theorem PostLogHandler_outcome_unique (db : InsertArgs → Except String Int) (now : Time)
    (method : String) (decoded : Except String Log) :
    ∃! k : Fin 5, PostLogHandler.Outcome db now method decoded k := by
  obtain ⟨c0, c1, c2, c3, c4⟩ := PostLogHandler_cases db now method decoded
  by_cases hm : method = "POST"
  · cases hd : decoded with
    | error e =>
      refine ⟨1, ⟨hm, e, rfl, hd ▸ c1 hm e hd⟩, ?_⟩
      intro k hk
      fin_cases k
      · exact absurd hm hk.1
      · rfl
      · obtain ⟨_, l, msg, h, _⟩ := hk; cases h
      · obtain ⟨_, l, e', h, _⟩ := hk; cases h
      · obtain ⟨_, l, id, h, _⟩ := hk; cases h
    | ok logEntry =>
      cases hv : validateLogEntry logEntry with
      | some msg =>
        refine ⟨2, ⟨hm, logEntry, msg, rfl, hv, hd ▸ c2 hm logEntry msg hd hv⟩, ?_⟩
        intro k hk
        fin_cases k
        · exact absurd hm hk.1
        · obtain ⟨_, e, h, _⟩ := hk; cases h
        · rfl
        · obtain ⟨_, l, e', h, hv', _⟩ := hk
          cases h; rw [hv] at hv'; cases hv'
        · obtain ⟨_, l, id, h, hv', _⟩ := hk
          cases h; rw [hv] at hv'; cases hv'
      | none =>
        cases hdb : db (insertArgsOf (PostLog.normalize now logEntry)) with
        | error e =>
          refine ⟨3, ⟨hm, logEntry, e, rfl, hv, hdb, hd ▸ c3 hm logEntry e hd hv hdb⟩, ?_⟩
          intro k hk
          fin_cases k
          · exact absurd hm hk.1
          · obtain ⟨_, e', h, _⟩ := hk; cases h
          · obtain ⟨_, l, msg, h, hv', _⟩ := hk
            cases h; rw [hv] at hv'; cases hv'
          · rfl
          · obtain ⟨_, l, id, h, _, hdb', _⟩ := hk
            cases h; rw [hdb] at hdb'; cases hdb'
        | ok id =>
          refine ⟨4, ⟨hm, logEntry, id, rfl, hv, hdb, hd ▸ c4 hm logEntry id hd hv hdb⟩, ?_⟩
          intro k hk
          fin_cases k
          · exact absurd hm hk.1
          · obtain ⟨_, e', h, _⟩ := hk; cases h
          · obtain ⟨_, l, msg, h, hv', _⟩ := hk
            cases h; rw [hv] at hv'; cases hv'
          · obtain ⟨_, l, e', h, _, hdb', _⟩ := hk
            cases h; rw [hdb] at hdb'; cases hdb'
          · rfl
  · refine ⟨0, ⟨hm, c0 hm⟩, ?_⟩
    intro k hk
    fin_cases k
    · rfl
    · exact absurd hk.1 hm
    · exact absurd hk.1 hm
    · exact absurd hk.1 hm
    · exact absurd hk.1 hm

/-- C19: the response of `PostLogHandler` is decided in this order: 405 when
the method is not POST, with no INSERT and whatever the body; else 400
`Invalid request body` when decoding fails; else 400 with the validation
message when validation fails; else 500 `Failed to save log` when the INSERT
fails; else 201 with the normalised record carrying the identifier the store
assigned. Exactly one of the five outcomes occurs for every request. -/
theorem PostLogHandler_outcomes (db : InsertArgs → Except String Int) (now : Time)
    (method : String) (decoded : Except String Log) :
    (method ≠ "POST" →
      PostLogHandler db now method decoded = (Response.error "Method not allowed" 405, [])) ∧
    (method = "POST" → ∀ e, decoded = Except.error e →
      PostLogHandler db now method decoded =
        (Response.error "Invalid request body" 400, [])) ∧
    (method = "POST" → ∀ logEntry msg, decoded = Except.ok logEntry →
      validateLogEntry logEntry = some msg →
      PostLogHandler db now method decoded = (Response.error msg 400, [])) ∧
    (method = "POST" → ∀ logEntry e, decoded = Except.ok logEntry →
      validateLogEntry logEntry = none →
      db (insertArgsOf (PostLog.normalize now logEntry)) = Except.error e →
      PostLogHandler db now method decoded =
        (Response.error "Failed to save log" 500,
          [insertArgsOf (PostLog.normalize now logEntry)])) ∧
    (method = "POST" → ∀ logEntry id, decoded = Except.ok logEntry →
      validateLogEntry logEntry = none →
      db (insertArgsOf (PostLog.normalize now logEntry)) = Except.ok id →
      PostLogHandler db now method decoded =
        (Response.json 201 { PostLog.normalize now logEntry with ID := id },
          [insertArgsOf (PostLog.normalize now logEntry)])) ∧
    ∃! k : Fin 5, PostLogHandler.Outcome db now method decoded k := by
  obtain ⟨c0, c1, c2, c3, c4⟩ := PostLogHandler_cases db now method decoded
  exact ⟨c0, c1, c2, c3, c4, PostLogHandler_outcome_unique db now method decoded⟩

/-- C19 at four requests: a GET, an undecodable body, a store that fails and
a store that assigns identifier 7. -/
theorem PostLogHandler_outcomes_witness :
    PostLogHandler (fun _ => Except.ok 7) ⟨100, 0⟩ "GET"
        (Except.ok { Log.empty with ServiceName := "api", Message := "up" }) =
      (Response.error "Method not allowed" 405, []) ∧
    PostLogHandler (fun _ => Except.ok 7) ⟨100, 0⟩ "POST" (Except.error "unexpected EOF") =
      (Response.error "Invalid request body" 400, []) ∧
    (PostLogHandler (fun _ => Except.error "connection refused") ⟨100, 0⟩ "POST"
        (Except.ok { Log.empty with ServiceName := "api", Message := "up" })).1 =
      Response.error "Failed to save log" 500 ∧
    (PostLogHandler (fun _ => Except.ok 7) ⟨100, 0⟩ "POST"
        (Except.ok { Log.empty with ServiceName := "api", Message := "up" })).1 =
      Response.json 201
        { ID := 7, ServiceName := "api", LogLevel := "", Message := "up",
          Timestamp := ⟨100, 0⟩, TraceID := ⟨"", false⟩, SpanID := ⟨"", false⟩,
          Metadata := some "\x7b\x7d" } := by
  refine ⟨?_, ?_, by decide, by decide⟩
  · exact (PostLogHandler_outcomes (fun _ => Except.ok 7) ⟨100, 0⟩ "GET"
      (Except.ok { Log.empty with ServiceName := "api", Message := "up" })).1 (by decide)
  · exact (PostLogHandler_outcomes (fun _ => Except.ok 7) ⟨100, 0⟩ "POST"
      (Except.error "unexpected EOF")).2.1 rfl _ rfl

end GoInsight
